import Mathlib

/-!
Verification development for the Tail language pipeline: a shallow embedding
of the reference implementation (lexer, parser, compiler, bytecode image
codec and stack VM) together with theorems settling the specification
claims against it.

Conventions used throughout the embedding:
* machine bytes are Nat values (well-formedness bounds them below 256);
* C++ uint32 / uint16 / uint8 fields are Nat with explicit bounds where
  they matter, and casts are modelled with explicit mod;
* int64 fields are Int, serialized through their two's-complement pattern;
* IEEE-754 doubles are carried as their 64-bit patterns; the numeric
  results of floating-point arithmetic are not modelled (no claim depends
  on them), only which control path executes;
* byte strings (std::string) are List Nat of their bytes;
* C++ exceptions (compile errors, VM runtime errors) are Except / Option
  failure values: a VM runtime error unwinds the interpreter and
  terminates the VM.
-/

namespace TailSpec

/-! ## Byte-level primitives (src/shared/bytecode.cpp, writeUint32 etc.) -/

/-- Little-endian encoding of a value into k bytes, as in writeUint32 /
writeUint16 / writeInt64: byte i is (v >> (8*i)) & 0xFF, so any overflow
beyond k bytes is truncated exactly like the C++ casts. -/
def writeLE : Nat → Nat → List Nat
  | 0, _ => []
  | k + 1, v => v % 256 :: writeLE k (v / 256)

/-- Little-endian decoding of k bytes, as in readUint32 / readUint16 /
readInt64; fails when fewer than k bytes remain. -/
def readLE : Nat → List Nat → Option (Nat × List Nat)
  | 0, bs => some (0, bs)
  | _ + 1, [] => none
  | k + 1, b :: bs =>
    match readLE k bs with
    | some (v, r) => some (b + 256 * v, r)
    | none => none

/-- Read k raw bytes (string payloads); fails when fewer remain. -/
def readBytes : Nat → List Nat → Option (List Nat × List Nat)
  | 0, bs => some ([], bs)
  | _ + 1, [] => none
  | k + 1, b :: bs =>
    match readBytes k bs with
    | some (s, r) => some (b :: s, r)
    | none => none

/-- Run a record reader k times, collecting results (the per-item loops of
BytecodeFile::deserialize). -/
def readCount (rd : List Nat → Option (α × List Nat)) :
    Nat → List Nat → Option (List α × List Nat)
  | 0, bs => some ([], bs)
  | k + 1, bs =>
    match rd bs with
    | none => none
    | some (x, bs1) =>
      match readCount rd k bs1 with
      | none => none
      | some (xs, bs2) => some (x :: xs, bs2)

/-- Two's-complement 64-bit pattern of an int64 value, the bytes written by
writeInt64. -/
def int64Bits (v : Int) : Nat := (v % (2 ^ 64 : Int)).toNat

/-- Value recovered by readInt64 from a 64-bit pattern. -/
def decodeInt64 (n : Nat) : Int :=
  if n < 2 ^ 63 then (n : Int) else (n : Int) - 2 ^ 64

/-! ## Image data model (src/shared/bytecode.h) -/

/-- A constant-pool entry: the ValueType tag together with its payload
(union Constant::as). Tags follow the ValueType enum values 0..7. -/
inductive ConstVal where
  | nil
  | int (v : Int)
  | float (bits : Nat)
  | bool (b : Bool)
  | str (idx : Nat)
  | arrInt (idx : Nat)
  | arrFloat (idx : Nat)
  | arrStr (idx : Nat)
deriving DecidableEq

/-- The ValueType tag byte of a constant. -/
def ConstVal.tag : ConstVal → Nat
  | .nil => 0
  | .int _ => 1
  | .float _ => 2
  | .bool _ => 3
  | .str _ => 4
  | .arrInt _ => 5
  | .arrFloat _ => 6
  | .arrStr _ => 7

/-- One instruction: opcode byte and u32 operand. -/
structure Instr where
  opcode : Nat
  operand : Nat

/-- Symbol-table entry (name, address, arity, locals); the name is the raw
byte string. -/
structure FunctionInfo where
  name : List Nat
  address : Nat
  arity : Nat
  locals : Nat

/-- The compiled image (struct BytecodeFile). -/
structure BytecodeFile where
  magic : Nat
  version : Nat
  flags : Nat
  code : List Instr
  constants : List ConstVal
  strings : List (List Nat)
  intArrays : List (List Int)
  floatArrays : List (List Nat)
  stringArrays : List (List (List Nat))
  functions : List FunctionInfo
  nativeImports : List (List Nat)

/-- The fixed TAIL magic. -/
def magicTAIL : Nat := 0x5441494C

/-! ## Serialization (BytecodeFile::serialize) -/

/-- One serialized constant record: a type tag byte, then a payload whose
width depends on the tag (int64 / float64: 8 bytes; bool: a single byte;
string and array kinds: a 4-byte index; nil: 8 zero bytes), exactly as the
switch in BytecodeFile::serialize writes it. -/
def serializeConst (c : ConstVal) : List Nat :=
  c.tag ::
    match c with
    | .nil => List.replicate 8 0
    | .int v => writeLE 8 (int64Bits v)
    | .float bits => writeLE 8 bits
    | .bool b => [if b then 1 else 0]
    | .str i => writeLE 4 i
    | .arrInt i => writeLE 4 i
    | .arrFloat i => writeLE 4 i
    | .arrStr i => writeLE 4 i

/-- One serialized instruction record: opcode byte, then u32 operand. -/
def serializeInstr (i : Instr) : List Nat :=
  i.opcode % 256 :: writeLE 4 i.operand

/-- Length-prefixed byte string (strings, native imports). -/
def serializeLStr (s : List Nat) : List Nat :=
  writeLE 4 s.length ++ s

/-- Serialized int-array pool entry: length, then int64 payloads. -/
def serializeIntArray (a : List Int) : List Nat :=
  writeLE 4 a.length ++ (a.map (fun v => writeLE 8 (int64Bits v))).flatten

/-- Serialized float-array pool entry: length, then float64 payloads. -/
def serializeFloatArray (a : List Nat) : List Nat :=
  writeLE 4 a.length ++ (a.map (fun v => writeLE 8 v)).flatten

/-- Serialized string-array pool entry: length, then length-prefixed
strings. -/
def serializeStrArray (a : List (List Nat)) : List Nat :=
  writeLE 4 a.length ++ (a.map serializeLStr).flatten

/-- Serialized function record: name length, name bytes, address, arity
byte, locals byte. -/
def serializeFunc (f : FunctionInfo) : List Nat :=
  writeLE 4 f.name.length ++ f.name ++ writeLE 4 f.address
    ++ [f.arity % 256, f.locals % 256]

/-- BytecodeFile::serialize, section by section in the file order of
src/shared/bytecode.cpp lines 71-174. -/
def serialize (b : BytecodeFile) : List Nat :=
  writeLE 4 b.magic ++ writeLE 2 b.version ++ writeLE 2 b.flags
    ++ writeLE 4 b.code.length ++ (b.code.map serializeInstr).flatten
    ++ writeLE 4 b.constants.length ++ (b.constants.map serializeConst).flatten
    ++ writeLE 4 b.strings.length ++ (b.strings.map serializeLStr).flatten
    ++ writeLE 4 b.intArrays.length ++ (b.intArrays.map serializeIntArray).flatten
    ++ writeLE 4 b.floatArrays.length ++ (b.floatArrays.map serializeFloatArray).flatten
    ++ writeLE 4 b.stringArrays.length ++ (b.stringArrays.map serializeStrArray).flatten
    ++ writeLE 4 b.functions.length ++ (b.functions.map serializeFunc).flatten
    ++ writeLE 4 b.nativeImports.length ++ (b.nativeImports.map serializeLStr).flatten

/-! ## Deserialization (BytecodeFile::deserialize) -/

/-- Read one constant record. The C++ default branch keeps an unknown tag
and skips 8 bytes; a well-typed in-memory image never holds a tag outside
the ValueType enum (0..7), so the model rejects such tags. -/
def readConst (bs : List Nat) : Option (ConstVal × List Nat) :=
  match bs with
  | [] => none
  | t :: rest =>
    if t = 0 then
      match readBytes 8 rest with
      | some (_, r) => some (.nil, r)
      | none => none
    else if t = 1 then
      match readLE 8 rest with
      | some (n, r) => some (.int (decodeInt64 n), r)
      | none => none
    else if t = 2 then
      match readLE 8 rest with
      | some (n, r) => some (.float n, r)
      | none => none
    else if t = 3 then
      match rest with
      | b :: r => some (.bool (b != 0), r)
      | [] => none
    else if t = 4 then
      match readLE 4 rest with
      | some (n, r) => some (.str n, r)
      | none => none
    else if t = 5 then
      match readLE 4 rest with
      | some (n, r) => some (.arrInt n, r)
      | none => none
    else if t = 6 then
      match readLE 4 rest with
      | some (n, r) => some (.arrFloat n, r)
      | none => none
    else if t = 7 then
      match readLE 4 rest with
      | some (n, r) => some (.arrStr n, r)
      | none => none
    else none

/-- Read one instruction record. -/
def readInstr (bs : List Nat) : Option (Instr × List Nat) :=
  match bs with
  | [] => none
  | op :: rest =>
    match readLE 4 rest with
    | some (opd, r) => some (⟨op, opd⟩, r)
    | none => none

/-- Read a length-prefixed byte string. -/
def readLStr (bs : List Nat) : Option (List Nat × List Nat) := do
  let (len, r) ← readLE 4 bs
  readBytes len r

/-- Read one int-array pool entry. -/
def readIntArray (bs : List Nat) : Option (List Int × List Nat) := do
  let (len, r) ← readLE 4 bs
  readCount
    (fun b =>
      match readLE 8 b with
      | some (n, r2) => some (decodeInt64 n, r2)
      | none => none)
    len r

/-- Read one float-array pool entry. -/
def readFloatArray (bs : List Nat) : Option (List Nat × List Nat) := do
  let (len, r) ← readLE 4 bs
  readCount (readLE 8) len r

/-- Read one string-array pool entry. -/
def readStrArray (bs : List Nat) : Option (List (List Nat) × List Nat) := do
  let (len, r) ← readLE 4 bs
  readCount readLStr len r

/-- Read one function record. -/
def readFunc (bs : List Nat) : Option (FunctionInfo × List Nat) := do
  let (nameLen, r) ← readLE 4 bs
  let (name, r) ← readBytes nameLen r
  let (address, r) ← readLE 4 r
  match r with
  | a :: l :: r2 => some (⟨name, address, a, l⟩, r2)
  | _ => none

/-- Read a u32 count followed by that many records (each section of
BytecodeFile::deserialize). -/
def readSection (rd : List Nat → Option (α × List Nat)) (bs : List Nat) :
    Option (List α × List Nat) :=
  match readLE 4 bs with
  | none => none
  | some (count, bs) => readCount rd count bs

/-- BytecodeFile::deserialize (src/shared/bytecode.cpp lines 176-365):
header with magic validation, then the eight sections with bound checks;
trailing bytes are only a warning, so they are accepted. -/
def deserialize (data : List Nat) : Option BytecodeFile :=
  if data.length < 8 then none else
  (readLE 4 data).bind fun (magic, bs) =>
  if magic ≠ magicTAIL then none else
  (readLE 2 bs).bind fun (version, bs) =>
  (readLE 2 bs).bind fun (flags, bs) =>
  (readLE 4 bs).bind fun (codeSize, bs) =>
  if bs.length < 5 * codeSize then none else
  (readCount readInstr codeSize bs).bind fun (code, bs) =>
  (readSection readConst bs).bind fun (constants, bs) =>
  (readSection readLStr bs).bind fun (strings, bs) =>
  (readSection readIntArray bs).bind fun (intArrays, bs) =>
  (readSection readFloatArray bs).bind fun (floatArrays, bs) =>
  (readSection readStrArray bs).bind fun (stringArrays, bs) =>
  (readSection readFunc bs).bind fun (functions, bs) =>
  (readSection readLStr bs).bind fun (nativeImports, _) =>
  some ⟨magic, version, flags, code, constants, strings, intArrays,
    floatArrays, stringArrays, functions, nativeImports⟩

/-! ## Well-formedness: the bounds guaranteed by the C++ field types
(uint32 sizes and operands, uint8 opcode / arity / locals, int64 and
double payloads). -/

/-- Bounds carried by the C++ types of an instruction. -/
def instrWF (i : Instr) : Prop := i.opcode < 256 ∧ i.operand < 2 ^ 32

/-- Bounds carried by the C++ types of a constant's payload. -/
def constWF : ConstVal → Prop
  | .int v => -(2 ^ 63) ≤ v ∧ v < 2 ^ 63
  | .float bits => bits < 2 ^ 64
  | .str i => i < 2 ^ 32
  | .arrInt i => i < 2 ^ 32
  | .arrFloat i => i < 2 ^ 32
  | .arrStr i => i < 2 ^ 32
  | _ => True

/-- Bounds carried by the C++ types of a function record. -/
def funcWF (f : FunctionInfo) : Prop :=
  f.name.length < 2 ^ 32 ∧ f.address < 2 ^ 32 ∧ f.arity < 256 ∧ f.locals < 256

/-- Field bounds of an in-memory image, as imposed by its C++ field types
and the u32 length prefixes of the wire format. -/
def BytecodeFile.WF (b : BytecodeFile) : Prop :=
  b.version < 2 ^ 16 ∧ b.flags < 2 ^ 16 ∧
  b.code.length < 2 ^ 32 ∧ (∀ i ∈ b.code, instrWF i) ∧
  b.constants.length < 2 ^ 32 ∧ (∀ c ∈ b.constants, constWF c) ∧
  b.strings.length < 2 ^ 32 ∧ (∀ s ∈ b.strings, s.length < 2 ^ 32) ∧
  b.intArrays.length < 2 ^ 32 ∧
    (∀ a ∈ b.intArrays, a.length < 2 ^ 32 ∧ ∀ v ∈ a, -(2 ^ 63) ≤ v ∧ v < 2 ^ 63) ∧
  b.floatArrays.length < 2 ^ 32 ∧
    (∀ a ∈ b.floatArrays, a.length < 2 ^ 32 ∧ ∀ v ∈ a, v < 2 ^ 64) ∧
  b.stringArrays.length < 2 ^ 32 ∧
    (∀ a ∈ b.stringArrays, a.length < 2 ^ 32 ∧ ∀ s ∈ a, s.length < 2 ^ 32) ∧
  b.functions.length < 2 ^ 32 ∧ (∀ f ∈ b.functions, funcWF f) ∧
  b.nativeImports.length < 2 ^ 32 ∧ (∀ s ∈ b.nativeImports, s.length < 2 ^ 32)

instance : DecidablePred instrWF := fun i => by unfold instrWF; infer_instance

instance : DecidablePred constWF := fun c => by
  unfold constWF; cases c <;> infer_instance

instance : DecidablePred funcWF := fun f => by unfold funcWF; infer_instance

instance (b : BytecodeFile) : Decidable b.WF := by
  unfold BytecodeFile.WF; infer_instance

/-! ## Opcode values (enum OpCode, src/shared/bytecode.h) -/

def OP_PUSH : Nat := 0x01
def OP_POP : Nat := 0x02
def OP_DUP : Nat := 0x03
def OP_SWAP : Nat := 0x04
def OP_ADD : Nat := 0x10
def OP_SUB : Nat := 0x11
def OP_MUL : Nat := 0x12
def OP_DIV : Nat := 0x13
def OP_MOD : Nat := 0x14
def OP_NEG : Nat := 0x15
def OP_INC : Nat := 0x16
def OP_DEC : Nat := 0x17
def OP_EQ : Nat := 0x20
def OP_NEQ : Nat := 0x21
def OP_LT : Nat := 0x22
def OP_LTE : Nat := 0x23
def OP_GT : Nat := 0x24
def OP_GTE : Nat := 0x25
def OP_AND : Nat := 0x30
def OP_OR : Nat := 0x31
def OP_NOT : Nat := 0x32
def OP_LOAD : Nat := 0x40
def OP_STORE : Nat := 0x41
def OP_LOAD_GLOBAL : Nat := 0x42
def OP_STORE_GLOBAL : Nat := 0x43
def OP_JMP : Nat := 0x50
def OP_JMP_IF : Nat := 0x51
def OP_JMP_IFNOT : Nat := 0x52
def OP_CALL : Nat := 0x53
def OP_RET : Nat := 0x54
def OP_CALL_NATIVE : Nat := 0x55
def OP_NEW_ARRAY : Nat := 0x60
def OP_LOAD_INDEX : Nat := 0x61
def OP_STORE_INDEX : Nat := 0x62
def OP_ARRAY_LEN : Nat := 0x63
def OP_PRINT : Nat := 0x70
def OP_READ : Nat := 0x71
def OP_PRINTLN : Nat := 0x72
def OP_HALT : Nat := 0xFF

/-! ## AST (src/shared/ast.h)

Expression and statement trees as the parser builds them. Literal floats
carry their IEEE-754 bit pattern; parameters are (type, name) pairs. -/

/-- Compile-time literal value (class Value of src/shared/value.h,
restricted to the variants literal expressions ever hold). -/
inductive LitVal where
  | nil
  | int (v : Int)
  | float (bits : Nat)
  | bool (b : Bool)
  | str (s : String)

inductive Expr where
  | lit (v : LitVal)
  | varE (name : String)
  | binary (l : Expr) (op : String) (r : Expr)
  | compare (l : Expr) (op : String) (r : Expr)
  | logical (l : Option Expr) (op : String) (r : Expr)
  | call (className : String) (methodName : String) (args : List Expr)
      (isNative : Bool)
  | get (obj : Expr) (name : String)
  | arrayE (elems : List Expr)
  | indexE (arr : Expr) (idx : Expr)
  | nullE

/- nullE models a null shared_ptr<Expr> child, which the parser's error
recovery can produce; every dynamic cast fails on it, so the compiler
throws "Unknown expression type" exactly as on an unknown node. -/

inductive Stmt where
  | exprS (e : Expr)
  | varDecl (isMut : Bool) (ty : String) (name : String) (initE : Option Expr)
  | assign (name : String) (value : Expr)
  | block (stmts : List Stmt)
  | ifS (cond : Expr) (thenB : Stmt) (elseB : Option Stmt)
  | whileS (cond : Expr) (body : Stmt)
  | forS (initS : Option Stmt) (cond : Option Expr) (inc : Option Expr)
      (body : Stmt)
  | ret (v : Option Expr)
  | breakS
  | continueS
  | funcS (name : String) (params : List (String × String)) (body : List Stmt)
  | arrayDecl (ty : String) (name : String) (size : Option Expr)
      (initE : Option Expr)
  | nullS

/- nullS likewise models a null shared_ptr<Stmt> (e.g. the body slot of a
while statement when its parse failed); compiling it throws
"Unknown statement type". -/

/-! ## Compiler state (class Compiler, src/compiler/compiler.h) -/

/-- Bytes of a std::string program identifier. -/
def strBytes (s : String) : List Nat := s.data.map Char.toNat

/-- Compiler::FunctionContext. The LocalVar vector is write-only in the
reference (nothing ever reads it), so only the name map and counters are
kept. varMap insertion conses to the front; List.lookup returns the most
recent binding, matching std::map operator[] overwrite semantics. -/
structure FuncCtx where
  varMap : List (String × Nat) := []
  nextLocal : Nat := 0
  startAddr : Nat := 0
  paramCount : Nat := 0

/-- FunctionContext::addLocal: binds name to nextLocal and bumps it. -/
def FuncCtx.addLocal (c : FuncCtx) (name : String) : Nat × FuncCtx :=
  (c.nextLocal,
    { c with varMap := (name, c.nextLocal) :: c.varMap,
             nextLocal := c.nextLocal + 1 })

/-- Compiler::LoopContext (the unused breakAddr / continueAddr placeholder
fields are omitted; nothing reads them). -/
structure LoopCtx where
  breakPatches : List Nat := []
  continuePatches : List Nat := []

/-- The compiler's mutable state: the image under construction plus the
context stacks. List heads model the backs of the C++ vectors (most
recently pushed first). -/
structure CompState where
  code : List Instr := []
  constants : List ConstVal := []
  strings : List (List Nat) := []
  functions : List FunctionInfo := []
  nativeImports : List (List Nat) := []
  contextStack : List FuncCtx := []
  loopStack : List LoopCtx := []
  globalMap : List (String × Nat) := []
  functionAddrs : List (String × Nat) := []

/-- currentContext(): the innermost (most recently pushed) context. -/
def currentContext (s : CompState) : FuncCtx := s.contextStack.headD {}

/-- Write back the innermost context (C++ mutates it through a
reference). -/
def setCurrentContext (s : CompState) (c : FuncCtx) : CompState :=
  { s with contextStack := c :: s.contextStack.tail }

/-- Compiler::emit. -/
def emit (s : CompState) (op : Nat) (operand : Nat) : CompState :=
  { s with code := s.code ++ [⟨op, operand⟩] }

/-- Rewrite the operand of the instruction at addr (out-of-range writes
never occur: every patched site was emitted earlier). -/
def setOperand (code : List Instr) (addr : Nat) (target : Nat) : List Instr :=
  match code.get? addr with
  | some i => code.set addr ⟨i.opcode, target⟩
  | none => code

/-- Compiler::emitJump: emit op with the 0xFFFFFFFF placeholder operand and
return the emitted instruction's index. -/
def emitJump (s : CompState) (op : Nat) : Nat × CompState :=
  (s.code.length, emit s op 0xFFFFFFFF)

/-- Compiler::patchJump: point the jump at addr to the current code end. -/
def patchJump (s : CompState) (addr : Nat) : CompState :=
  { s with code := setOperand s.code addr s.code.length }

/-- Compiler::patchJumps. -/
def patchJumps (s : CompState) (patches : List Nat) (target : Nat) : CompState :=
  { s with code := patches.foldl (fun c a => setOperand c a target) s.code }

/-- Compiler::addConstantInt: dedup by tag and value. -/
def addConstantInt (s : CompState) (v : Int) : Nat × CompState :=
  match s.constants.findIdx? (fun c => c = ConstVal.int v) with
  | some i => (i, s)
  | none => (s.constants.length,
      { s with constants := s.constants ++ [ConstVal.int v] })

/-- IEEE-754 NaN test on a 64-bit pattern (exponent all ones, non-zero
mantissa). -/
def isNaNBits (a : Nat) : Bool := (a / 2 ^ 52) % 2 ^ 11 = 2047 && a % 2 ^ 52 != 0

/-- IEEE-754 test for ±0.0 on a 64-bit pattern. -/
def isZeroBits (a : Nat) : Bool := a % 2 ^ 63 = 0

/-- The C++ double operator== on bit patterns: NaN compares unequal to
everything, +0.0 equals -0.0, all other values compare by pattern. -/
def floatEqBits (a b : Nat) : Bool :=
  if isNaNBits a || isNaNBits b then false
  else if isZeroBits a && isZeroBits b then true
  else a = b

/-- Compiler::addConstantFloat: dedup by tag and double equality. -/
def addConstantFloat (s : CompState) (bits : Nat) : Nat × CompState :=
  match s.constants.findIdx?
      (fun c => match c with
        | .float b2 => floatEqBits b2 bits
        | _ => false) with
  | some i => (i, s)
  | none => (s.constants.length,
      { s with constants := s.constants ++ [ConstVal.float bits] })

/-- Compiler::addConstantBool. -/
def addConstantBool (s : CompState) (b : Bool) : Nat × CompState :=
  match s.constants.findIdx? (fun c => c = ConstVal.bool b) with
  | some i => (i, s)
  | none => (s.constants.length,
      { s with constants := s.constants ++ [ConstVal.bool b] })

/-- The nested scan of Compiler::addConstantString: for each string-table
index holding these bytes (ascending), the first constant referencing that
index; none when no constant refers to any matching string slot. -/
def lookupStringConstant (strs : List (List Nat)) (consts : List ConstVal)
    (v : List Nat) : Option Nat :=
  strs.enum.findSome? (fun p =>
    if p.2 = v then consts.findIdx? (fun c => c = ConstVal.str p.1) else none)

/-- Compiler::addConstantString: reuse a constant referencing an equal
string, else append both a fresh string-table slot and a fresh constant. -/
def addConstantString (s : CompState) (v : String) : Nat × CompState :=
  let bytes := strBytes v
  match lookupStringConstant s.strings s.constants bytes with
  | some j => (j, s)
  | none =>
    let strIdx := s.strings.length
    (s.constants.length,
      { s with strings := s.strings ++ [bytes],
               constants := s.constants ++ [ConstVal.str strIdx] })

def emitPushInt (s : CompState) (v : Int) : CompState :=
  let (idx, s) := addConstantInt s v
  emit s OP_PUSH idx

def emitPushFloat (s : CompState) (bits : Nat) : CompState :=
  let (idx, s) := addConstantFloat s bits
  emit s OP_PUSH idx

def emitPushBool (s : CompState) (b : Bool) : CompState :=
  let (idx, s) := addConstantBool s b
  emit s OP_PUSH idx

def emitPushString (s : CompState) (v : String) : CompState :=
  let (idx, s) := addConstantString s v
  emit s OP_PUSH idx

/-- Compiler::emitPushNil: always appends a fresh nil constant, with no
dedup. -/
def emitPushNil (s : CompState) : CompState :=
  let idx := s.constants.length
  emit { s with constants := s.constants ++ [ConstVal.nil] } OP_PUSH idx

/-- Compiler::resolveLocal: scan the context stack innermost-first. -/
def resolveLocal (s : CompState) (name : String) : Option Nat :=
  s.contextStack.findSome? (fun ctx => ctx.varMap.lookup name)

/-- Compiler::resolveGlobal. Nothing in the reference ever inserts into
globalMap, so this lookup always misses, exactly as in the source. -/
def resolveGlobal (s : CompState) (name : String) : Option Nat :=
  s.globalMap.lookup name

/-- Compiler::addNativeImport: dedup by name. -/
def addNativeImport (s : CompState) (name : String) : Nat × CompState :=
  let bytes := strBytes name
  match s.nativeImports.findIdx? (fun n2 => n2 = bytes) with
  | some i => (i, s)
  | none => (s.nativeImports.length,
      { s with nativeImports := s.nativeImports ++ [bytes] })

/-- Compiler::compileNewArray: append an array-kind constant whose
arrayIdx payload is the given size, then emit NEW_ARRAY with the constant
index. -/
def compileNewArray (s : CompState) (cst : ConstVal) : CompState :=
  let idx := s.constants.length
  emit { s with constants := s.constants ++ [cst] } OP_NEW_ARRAY idx

/-- Compiler::compileLiteral (the Value variants a LiteralExpr can hold). -/
def compileLiteral (v : LitVal) (s : CompState) : Except String CompState :=
  match v with
  | .int n => .ok (emitPushInt s n)
  | .float bits => .ok (emitPushFloat s bits)
  | .bool b => .ok (emitPushBool s b)
  | .str t => .ok (emitPushString s t)
  | .nil => .ok (emitPushNil s)

/-- Compiler::compileVariable. -/
def compileVariable (name : String) (s : CompState) : Except String CompState :=
  match resolveLocal s name with
  | some idx => .ok (emit s OP_LOAD idx)
  | none =>
    match resolveGlobal s name with
    | some idx => .ok (emit s OP_LOAD_GLOBAL idx)
    | none => .error ("Undefined variable: " ++ name)

/-! ## AST size measure used only to seed the compiler's fuel: every
recursive call of the emitter moves to a node of strictly smaller
measure, so a fuel exceeding the root measure is never exhausted. -/

mutual

def exprFuel : Expr → Nat
  | .lit _ => 1
  | .varE _ => 1
  | .binary l _ r => exprFuel l + exprFuel r + 1
  | .compare l _ r => exprFuel l + exprFuel r + 1
  | .logical l _ r =>
    (match l with | some e => exprFuel e | none => 0) + exprFuel r + 1
  | .call _ _ args _ => exprFuelList args + 1
  | .get o _ => exprFuel o + 1
  | .arrayE es => exprFuelList es + 1
  | .indexE a i => exprFuel a + exprFuel i + 1
  | .nullE => 1

def exprFuelList : List Expr → Nat
  | [] => 1
  | e :: es => exprFuel e + exprFuelList es + 1

def stmtFuel : Stmt → Nat
  | .exprS e => exprFuel e + 1
  | .varDecl _ _ _ initE =>
    (match initE with | some e => exprFuel e | none => 0) + 1
  | .assign _ v => exprFuel v + 1
  | .block ss => stmtFuelList ss + 1
  | .ifS c t e =>
    exprFuel c + stmtFuel t +
      (match e with | some eb => stmtFuel eb | none => 0) + 1
  | .whileS c b => exprFuel c + stmtFuel b + 1
  | .forS i c inc b =>
    (match i with | some s2 => stmtFuel s2 | none => 0) +
    (match c with | some e => exprFuel e | none => 0) +
    (match inc with | some e => exprFuel e | none => 0) + stmtFuel b + 1
  | .ret v => (match v with | some e => exprFuel e | none => 0) + 1
  | .breakS => 1
  | .continueS => 1
  | .funcS _ _ body => stmtFuelList body + 1
  | .arrayDecl _ _ size initE =>
    (match size with | some e => exprFuel e | none => 0) +
    (match initE with | some e => exprFuel e | none => 0) + 1
  | .nullS => 1

def stmtFuelList : List Stmt → Nat
  | [] => 1
  | st :: rest => stmtFuel st + stmtFuelList rest + 1

end

/-! ## Local pre-count (Compiler::countLocals): walk the body counting
VarDecl statements and For-initializer declarations, recursing into
blocks, if branches, while and for bodies. ArrayDecl is not counted. -/

mutual

def countLocalsStmt : Stmt → Nat → Nat
  | .varDecl _ _ _ _, n => n + 1
  | .block ss, n => countLocalsList ss n
  | .ifS _ t e, n =>
    let n1 := countLocalsStmt t n
    match e with
    | some eb => countLocalsStmt eb n1
    | none => n1
  | .whileS _ b, n => countLocalsStmt b n
  | .forS initS _ _ b, n =>
    let n0 :=
      match initS with
      | some (.varDecl _ _ _ _) => n + 1
      | _ => n
    countLocalsStmt b n0
  | _, n => n

def countLocalsList : List Stmt → Nat → Nat
  | [], n => n
  | st :: rest, n => countLocalsList rest (countLocalsStmt st n)

end

/-! ## Code generation (Compiler::compileStmt / compileExpr and friends,
src/compiler/compiler.cpp). Compile errors are thrown C++ exceptions,
modelled as Except.error. The C++ recursion is structural over the AST;
the embedding drives it with a fuel parameter (first argument) instead,
and compileProgram supplies fuel amply exceeding the AST's size, so the
exhaustion branch is never taken on any input a theorem evaluates. -/

mutual

def compileExpr : Nat → Expr → CompState → Except String CompState
  | 0, _, _ => .error "compiler fuel exhausted"
  | _ + 1, .lit v, s => compileLiteral v s
  | _ + 1, .varE n, s => compileVariable n s
  | fuel + 1, .binary l op r, s =>
    (compileExpr fuel l s).bind fun s =>
    (compileExpr fuel r s).bind fun s =>
    if op = "+" then .ok (emit s OP_ADD 0)
    else if op = "-" then .ok (emit s OP_SUB 0)
    else if op = "*" then .ok (emit s OP_MUL 0)
    else if op = "/" then .ok (emit s OP_DIV 0)
    else if op = "%" then .ok (emit s OP_MOD 0)
    else .error ("Unknown binary operator: " ++ op)
  | fuel + 1, .compare l op r, s =>
    (compileExpr fuel l s).bind fun s =>
    (compileExpr fuel r s).bind fun s =>
    if op = "==" then .ok (emit s OP_EQ 0)
    else if op = "!=" then .ok (emit s OP_NEQ 0)
    else if op = "<" then .ok (emit s OP_LT 0)
    else if op = "<=" then .ok (emit s OP_LTE 0)
    else if op = ">" then .ok (emit s OP_GT 0)
    else if op = ">=" then .ok (emit s OP_GTE 0)
    else .error ("Unknown comparison operator: " ++ op)
  | fuel + 1, .logical l op r, s =>
    if op = "!" then
      (compileExpr fuel r s).bind fun s =>
      .ok (emit s OP_NOT 0)
    else if op = "&&" then
      match l with
      | some le =>
        (compileExpr fuel le s).bind fun s =>
        let (jump, s) := emitJump s OP_JMP_IFNOT
        (compileExpr fuel r s).bind fun s =>
        .ok (patchJump s jump)
      | none => .error "null left operand"
    else if op = "||" then
      match l with
      | some le =>
        (compileExpr fuel le s).bind fun s =>
        let (jump, s) := emitJump s OP_JMP_IF
        (compileExpr fuel r s).bind fun s =>
        .ok (patchJump s jump)
      | none => .error "null left operand"
    else .error ("Unknown logical operator: " ++ op)
  | fuel + 1, .call cn mn args isNat, s =>
    (compileExprList fuel args s).bind fun s =>
    if isNat then
      let full := cn ++ "." ++ mn
      if full = "Console.println" then .ok (emit s OP_PRINTLN 0)
      else if full = "Console.print" then .ok (emit s OP_PRINT 0)
      else if full = "Console.read" then .ok (emit s OP_READ 0)
      else
        let (idx, s) := addNativeImport s full
        .ok (emit s OP_CALL_NATIVE idx)
    else
      let functionToCall := if cn ≠ "" then cn ++ "_" ++ mn else mn
      match s.functionAddrs.lookup functionToCall with
      | some addr => .ok (emit s OP_CALL addr)
      | none =>
        match s.functionAddrs.lookup mn with
        | some addr => .ok (emit s OP_CALL addr)
        | none => .error ("Function " ++ cn ++ "." ++ mn ++ " not found")
  | _ + 1, .get _ _, _ => .error "Unknown expression type"
  | fuel + 1, .arrayE elems, s =>
    if elems.isEmpty then .error "Empty array needs type specification"
    else
      (compileExprList fuel elems s).bind fun s =>
      let s := emitPushInt s elems.length
      .ok (emit s OP_NEW_ARRAY 0)
  | fuel + 1, .indexE a i, s =>
    (compileExpr fuel a s).bind fun s =>
    (compileExpr fuel i s).bind fun s =>
    .ok (emit s OP_LOAD_INDEX 0)
  | _ + 1, .nullE, _ => .error "Unknown expression type"

def compileExprList : Nat → List Expr → CompState → Except String CompState
  | 0, _, _ => .error "compiler fuel exhausted"
  | _ + 1, [], s => .ok s
  | fuel + 1, e :: es, s =>
    (compileExpr fuel e s).bind fun s =>
    compileExprList fuel es s

def compileStmt : Nat → Stmt → CompState → Except String CompState
  | 0, _, _ => .error "compiler fuel exhausted"
  | fuel + 1, .varDecl _ ty name initE, s =>
    match initE with
    | some e =>
      (compileExpr fuel e s).bind fun s =>
      let (localIdx, ctx) := (currentContext s).addLocal name
      .ok (emit (setCurrentContext s ctx) OP_STORE localIdx)
    | none =>
      let s :=
        if ty = "int" then emitPushInt s 0
        else if ty = "float" then emitPushFloat s 0
        else if ty = "bool" then emitPushBool s false
        else if ty = "str" then emitPushString s ""
        else emitPushNil s
      let (localIdx, ctx) := (currentContext s).addLocal name
      .ok (emit (setCurrentContext s ctx) OP_STORE localIdx)
  | fuel + 1, .assign name v, s =>
    (compileExpr fuel v s).bind fun s =>
    match resolveLocal s name with
    | some idx => .ok (emit s OP_STORE idx)
    | none =>
      match resolveGlobal s name with
      | some idx => .ok (emit s OP_STORE_GLOBAL idx)
      | none => .error ("Undefined variable: " ++ name)
  | fuel + 1, .exprS e, s =>
    (compileExpr fuel e s).bind fun s =>
    match e with
    | .call cn mn _ true =>
      let full := cn ++ "." ++ mn
      if full = "Console.println" || full = "Console.print" then .ok s
      else .ok (emit s OP_POP 0)
    | _ => .ok (emit s OP_POP 0)
  | fuel + 1, .block stmts, s =>
    let s := { s with contextStack := {} :: s.contextStack }
    (compileStmtList fuel stmts s).bind fun s =>
    .ok { s with contextStack := s.contextStack.tail }
  | fuel + 1, .ifS cond thenB elseB, s =>
    (compileExpr fuel cond s).bind fun s =>
    let (thenJump, s) := emitJump s OP_JMP_IFNOT
    (compileStmt fuel thenB s).bind fun s =>
    match elseB with
    | some eb =>
      let (elseJump, s) := emitJump s OP_JMP
      let s := patchJump s thenJump
      (compileStmt fuel eb s).bind fun s =>
      .ok (patchJump s elseJump)
    | none => .ok (patchJump s thenJump)
  | fuel + 1, .whileS cond body, s =>
    let s := { s with loopStack := {} :: s.loopStack }
    let loopStart := s.code.length
    (compileExpr fuel cond s).bind fun s =>
    let (exitJump, s) := emitJump s OP_JMP_IFNOT
    (compileStmt fuel body s).bind fun s =>
    let s :=
      if (s.loopStack.headD {}).continuePatches.isEmpty then s
      else patchJumps s (s.loopStack.headD {}).continuePatches s.code.length
    let s := emit s OP_JMP loopStart
    let s := patchJump s exitJump
    let s :=
      if (s.loopStack.headD {}).breakPatches.isEmpty then s
      else patchJumps s (s.loopStack.headD {}).breakPatches s.code.length
    .ok { s with loopStack := s.loopStack.tail }
  | fuel + 1, .forS initS cond inc body, s =>
    (match initS with
     | some i => compileStmt fuel i s
     | none => .ok s).bind fun s =>
    -- compileFor declares a local LoopContext and push_backs a COPY of it
    -- onto loopStack (src lines 309-310); the later write
    -- loop.breakPatches.push_back(exitJump) (line 318) mutates only the
    -- dead local copy, so the exit jump is recorded nowhere that is ever
    -- read again.
    let s := { s with loopStack := {} :: s.loopStack }
    let loopStart := s.code.length
    (match cond with
     | some c =>
       (compileExpr fuel c s).bind fun s =>
       let (_exitJump, s) := emitJump s OP_JMP_IFNOT
       .ok s
     | none => .ok s).bind fun s =>
    (compileStmt fuel body s).bind fun s =>
    let s :=
      if (s.loopStack.headD {}).continuePatches.isEmpty then s
      else patchJumps s (s.loopStack.headD {}).continuePatches s.code.length
    (match inc with
     | some e =>
       (compileExpr fuel e s).bind fun s =>
       .ok (emit s OP_POP 0)
     | none => .ok s).bind fun s =>
    let s := emit s OP_JMP loopStart
    let exitAddr := s.code.length
    let s :=
      if (s.loopStack.headD {}).breakPatches.isEmpty then s
      else patchJumps s (s.loopStack.headD {}).breakPatches exitAddr
    .ok { s with loopStack := s.loopStack.tail }
  | fuel + 1, .ret v, s =>
    (match v with
     | some e => compileExpr fuel e s
     | none => .ok (emitPushNil s)).bind fun s =>
    .ok (emit s OP_RET 0)
  | _ + 1, .breakS, s =>
    if s.loopStack.isEmpty then .error "Break outside loop"
    else
      let (jump, s) := emitJump s OP_JMP
      let top := s.loopStack.headD {}
      .ok { s with loopStack :=
        { top with breakPatches := top.breakPatches ++ [jump] } :: s.loopStack.tail }
  | _ + 1, .continueS, s =>
    if s.loopStack.isEmpty then .error "Continue outside loop"
    else
      let (jump, s) := emitJump s OP_JMP
      let top := s.loopStack.headD {}
      .ok { s with loopStack :=
        { top with continuePatches := top.continuePatches ++ [jump] } :: s.loopStack.tail }
  | fuel + 1, .funcS name params body, s => compileFunction fuel name params body s
  | fuel + 1, .arrayDecl ty name size initE, s =>
    (if ty = "int" then (.ok (ConstVal.arrInt 0) : Except String ConstVal)
     else if ty = "float" then .ok (ConstVal.arrFloat 0)
     else if ty = "str" then .ok (ConstVal.arrStr 0)
     else .error ("Unsupported array type: " ++ ty)).bind fun elemCst =>
    (match size with
     | some e =>
       (compileExpr fuel e s).bind fun s =>
       .ok (compileNewArray s elemCst)
     | none =>
       match initE with
       | some e => compileExpr fuel e s
       | none => .ok (compileNewArray s elemCst)).bind fun s =>
    let (localIdx, ctx) := (currentContext s).addLocal name
    .ok (emit (setCurrentContext s ctx) OP_STORE localIdx)
  | _ + 1, .nullS, _ => .error "Unknown statement type"

def compileStmtList : Nat → List Stmt → CompState → Except String CompState
  | 0, _, _ => .error "compiler fuel exhausted"
  | _ + 1, [], s => .ok s
  | fuel + 1, st :: rest, s =>
    (compileStmt fuel st s).bind fun s =>
    compileStmtList fuel rest s

/-- Compiler::compileFunction. Compiler::compile always invokes it with an
empty sourceFileName, so the module-qualified renaming branch is never
taken and functionName = name; functionAddrs then receives the name twice
for non-Main functions, exactly as in the source. arity and locals are
uint8 fields, hence the mod 256. -/
def compileFunction : Nat → String → List (String × String) → List Stmt →
    CompState → Except String CompState
  | 0, _, _, _, _ => .error "compiler fuel exhausted"
  | fuel + 1, name, params, body, s =>
    let funcAddr := s.code.length
    let s := { s with functionAddrs := (name, funcAddr) :: s.functionAddrs }
    let s :=
      if name ≠ "Main" then
        { s with functionAddrs := (name, funcAddr) :: s.functionAddrs }
      else s
    let localsCount := countLocalsList body params.length
    let funcCtx := params.foldl (fun c p => (c.addLocal p.2).2)
      { varMap := [], nextLocal := 0, startAddr := funcAddr,
        paramCount := params.length }
    let s := { s with contextStack := funcCtx :: s.contextStack }
    (compileStmtList fuel body s).bind fun s =>
    let needRet :=
      match s.code.getLast? with
      | none => true
      | some i => i.opcode != OP_RET && i.opcode != OP_HALT
    let s := if needRet then emit (emitPushNil s) OP_RET 0 else s
    let s := { s with contextStack := s.contextStack.tail }
    .ok { s with functions := s.functions ++
      [⟨strBytes name, funcAddr, params.length % 256, localsCount % 256⟩] }

end

/-- First pass of Compiler::compile: every FunctionStmt except Main, in
order; non-function top-level statements are skipped by both passes. -/
def passNonMain (fuel : Nat) : List Stmt → CompState → Except String CompState
  | [], s => .ok s
  | .funcS name params body :: rest, s =>
    if name ≠ "Main" then
      (compileFunction fuel name params body s).bind fun s =>
      passNonMain fuel rest s
    else passNonMain fuel rest s
  | _ :: rest, s => passNonMain fuel rest s

/-- Second pass of Compiler::compile: the first FunctionStmt named Main. -/
def passMain (fuel : Nat) : List Stmt → CompState → Except String (Bool × CompState)
  | [], s => .ok (false, s)
  | .funcS name params body :: rest, s =>
    if name = "Main" then
      (compileFunction fuel name params body s).bind fun s =>
      .ok (true, s)
    else passMain fuel rest s
  | _ :: rest, s => passMain fuel rest s

/-- Compiler::compile (the Compiler constructor pushes one blank function
context): non-Main functions first, then Main, a Main-missing check, and
a trailing HALT when the stream does not already end in one. The fuel
handed to the recursive emitter exceeds any AST's recursion depth. -/
def compileProgram (ast : List Stmt) : Except String BytecodeFile :=
  let fuel := stmtFuelList ast + 1
  let s0 : CompState := { contextStack := [{}] }
  (passNonMain fuel ast s0).bind fun s =>
  (passMain fuel ast s).bind fun (hasMain, s) =>
  if ¬hasMain then .error "Main function not found" else
  let needHalt :=
    match s.code.getLast? with
    | none => true
    | some i => i.opcode != OP_HALT
  let s := if needHalt then emit s OP_HALT 0 else s
  .ok ⟨magicTAIL, 1, 0, s.code, s.constants, s.strings, [], [], [],
    s.functions, s.nativeImports⟩

/-! ## VM (class VM, src/vm/vm.cpp)

Runtime values mirror class Value of src/shared/bytecode.h. A runtime
error (VM::runtimeError) throws out of the dispatch loop and terminates
the VM; it is modelled as Except.error carrying the message. Floating
point payloads are IEEE-754 bit patterns; the bit results of float
arithmetic are carried by the named functions below, whose values no
claim depends on — only the zero / NaN tests, which are exact. -/

inductive VMVal where
  | nil
  | int (v : Int)
  | float (bits : Nat)
  | bool (b : Bool)
  | str (idx : Nat)
  | arrInt (idx : Nat)
  | arrFloat (idx : Nat)
  | arrStr (idx : Nat)

/-- Bit pattern of double addition; IEEE arithmetic is not modelled and no
claim depends on this value. -/
def floatAddBits (_a _b : Nat) : Nat := 0

/-- Bit pattern of double subtraction (unmodelled, see floatAddBits). -/
def floatSubBits (_a _b : Nat) : Nat := 0

/-- Bit pattern of double multiplication (unmodelled, see floatAddBits). -/
def floatMulBits (_a _b : Nat) : Nat := 0

/-- Bit pattern of double division (unmodelled, see floatAddBits). -/
def floatDivBits (_a _b : Nat) : Nat := 0

/-- Bit pattern of static_cast<double>(int64) (unmodelled, see
floatAddBits). -/
def intToFloatBits (_v : Int) : Nat := 0

/-- Decimal text of std::to_string(double) (unmodelled; no claim depends
on it). -/
def floatToStringBytes (_bits : Nat) : List Nat := []

/-- Value::isTruthy. The float case is C++ (floatVal != 0.0): false
exactly on ±0.0, true on NaN. -/
def VMVal.isTruthy : VMVal → Bool
  | .nil => false
  | .int v => v != 0
  | .float bits => !(isZeroBits bits)
  | .bool b => b
  | _ => true

def VMVal.isStr : VMVal → Bool
  | .str _ => true
  | _ => false

/-- Value::toString(prog) as raw bytes. -/
def vmToString (strs : List (List Nat)) : VMVal → List Nat
  | .nil => strBytes "nil"
  | .int v => strBytes (toString v)
  | .float bits => floatToStringBytes bits
  | .bool b => strBytes (if b then "true" else "false")
  | .str idx => strs.getD idx (strBytes "[string]")
  | .arrInt _ => strBytes "[int array]"
  | .arrFloat _ => strBytes "[float array]"
  | .arrStr _ => strBytes "[string array]"

/-- VM::CallFrame. -/
structure VMFrame where
  returnAddr : Nat
  localStart : Nat
  argCount : Nat
  func : FunctionInfo

/-- The VM's mutable state. The image's string table lives here because
string-producing opcodes append to it at runtime. List heads model the
backs (tops) of the C++ vectors for stack and callStack; locals and
globals are indexed front-to-back like the C++ vectors. -/
structure VMState where
  pc : Nat := 0
  stack : List VMVal := []
  globals : List VMVal := []
  locals : List VMVal := []
  callStack : List VMFrame := []
  running : Bool := true
  strings : List (List Nat) := []

/-- VM::pop. -/
def vmPop (st : VMState) : Except String (VMVal × VMState) :=
  match st.stack with
  | [] => .error "Stack underflow"
  | v :: rest => .ok (v, { st with stack := rest })

/-- VM::push. -/
def vmPush (st : VMState) (v : VMVal) : VMState :=
  { st with stack := v :: st.stack }

/-- VM::peek with offset 0. -/
def vmPeek (st : VMState) : Except String VMVal :=
  match st.stack with
  | [] => .error "Stack peek out of bounds"
  | v :: _ => .ok v

/-- std::vector<Value>::resize with default-constructed (nil) fill. -/
def resizeList (l : List VMVal) (n : Nat) : List VMVal :=
  if n ≤ l.length then l.take n
  else l ++ List.replicate (n - l.length) .nil

/-- VM::opAdd: int/float addition with promotion, string concatenation
appending to the string table when either side is a string, and a silent
nil push on every other type pair (the final fallthrough of the C++
function — no runtime error). -/
def opAdd (st : VMState) : Except String VMState := do
  let (b, st) ← vmPop st
  let (a, st) ← vmPop st
  match a, b with
  | .int x, .int y => .ok (vmPush st (.int (x + y)))
  | .float x, .float y => .ok (vmPush st (.float (floatAddBits x y)))
  | .int x, .float y => .ok (vmPush st (.float (floatAddBits (intToFloatBits x) y)))
  | .float x, .int y => .ok (vmPush st (.float (floatAddBits x (intToFloatBits y))))
  | _, _ =>
    if a.isStr || b.isStr then
      let bytes := vmToString st.strings a ++ vmToString st.strings b
      let idx := st.strings.length
      .ok (vmPush { st with strings := st.strings ++ [bytes] } (.str idx))
    else .ok (vmPush st .nil)

/-- VM::opSub. -/
def opSub (st : VMState) : Except String VMState := do
  let (b, st) ← vmPop st
  let (a, st) ← vmPop st
  match a, b with
  | .int x, .int y => .ok (vmPush st (.int (x - y)))
  | .float x, .float y => .ok (vmPush st (.float (floatSubBits x y)))
  | _, _ => .error "Invalid types for subtraction"

/-- VM::opMul. -/
def opMul (st : VMState) : Except String VMState := do
  let (b, st) ← vmPop st
  let (a, st) ← vmPop st
  match a, b with
  | .int x, .int y => .ok (vmPush st (.int (x * y)))
  | .float x, .float y => .ok (vmPush st (.float (floatMulBits x y)))
  | _, _ => .error "Invalid types for multiplication"

/-- The b.type == TYPE_INT && b.as.intVal == 0 test of VM::opDiv. -/
def VMVal.isIntZero : VMVal → Bool
  | .int y => y == 0
  | _ => false

/-- The b.type == TYPE_FLOAT && b.as.floatVal == 0.0 test of VM::opDiv
(IEEE: true on ±0.0 only). -/
def VMVal.isFloatZero : VMVal → Bool
  | .float y => isZeroBits y
  | _ => false

/-- VM::opDiv: the divisor-zero checks run before the type checks, then
same-numeric-type division; int division truncates toward zero like C++. -/
def opDiv (st : VMState) : Except String VMState := do
  let (b, st) ← vmPop st
  let (a, st) ← vmPop st
  if b.isIntZero then .error "Division by zero"
  else if b.isFloatZero then .error "Division by zero"
  else
    match a, b with
    | .int x, .int y => .ok (vmPush st (.int (Int.tdiv x y)))
    | .float x, .float y => .ok (vmPush st (.float (floatDivBits x y)))
    | _, _ => .error "Invalid types for division"

/-- VM::opMod: two ints required, zero check inside that branch; C++ %
truncates like Int.tmod. -/
def opMod (st : VMState) : Except String VMState := do
  let (b, st) ← vmPop st
  let (a, st) ← vmPop st
  match a, b with
  | .int x, .int y =>
    if y = 0 then .error "Modulo by zero"
    else .ok (vmPush st (.int (Int.tmod x y)))
  | _, _ => .error "Invalid types for modulo"

/-- VM::opLoad — note the raw index into the flat locals vector, with no
frame-relative offset. -/
def opLoad (index : Nat) (st : VMState) : Except String VMState :=
  if st.locals.length ≤ index then .error "Local variable index out of bounds"
  else .ok (vmPush st (st.locals.getD index .nil))

/-- VM::opStore — writes through peek() without popping, raw index. -/
def opStore (index : Nat) (st : VMState) : Except String VMState :=
  if st.locals.length ≤ index then .error "Local variable index out of bounds"
  else do
    let v ← vmPeek st
    .ok { st with locals := st.locals.set index v }

/-- VM::opLoadGlobal — auto-extends the globals vector. -/
def opLoadGlobal (index : Nat) (st : VMState) : Except String VMState :=
  let st :=
    if st.globals.length ≤ index then
      { st with globals := resizeList st.globals (index + 1) }
    else st
  .ok (vmPush st (st.globals.getD index .nil))

/-- VM::opStoreGlobal — auto-extends, then writes through peek() without
popping. -/
def opStoreGlobal (index : Nat) (st : VMState) : Except String VMState := do
  let st :=
    if st.globals.length ≤ index then
      { st with globals := resizeList st.globals (index + 1) }
    else st
  let v ← vmPeek st
  .ok { st with globals := st.globals.set index v }

/-- The first argument loop of VM::callFunction: for i = arity-1 down to
0, pop into locals[localStart+i], or store nil when the stack is empty. -/
def storeArgsLoop (localStart : Nat) :
    Nat → List VMVal → List VMVal → List VMVal × List VMVal
  | 0, locals, stack => (locals, stack)
  | i + 1, locals, stack =>
    match stack with
    | v :: rest => storeArgsLoop localStart i (locals.set (localStart + i) v) rest
    | [] => storeArgsLoop localStart i (locals.set (localStart + i) .nil) []

/-- The second loop of VM::callFunction: pop up to arity further values. -/
def popExtraLoop : Nat → List VMVal → List VMVal
  | 0, stack => stack
  | i + 1, stack =>
    match stack with
    | _ :: rest => popExtraLoop i rest
    | [] => popExtraLoop i []

/-- VM::callFunction: linear search of the function table by address,
arity precondition, frame push, locals growth, then both pop loops. -/
def callFunction (functions : List FunctionInfo) (funcIndex : Nat)
    (st : VMState) : Except String VMState :=
  match functions.find? (fun f => f.address = funcIndex) with
  | none => .error ("Function not found at address: " ++ toString funcIndex)
  | some func =>
    if st.stack.length < func.arity then
      .error "Not enough arguments for function"
    else
      let frame : VMFrame := ⟨st.pc + 1, st.locals.length, func.arity, func⟩
      let st := { st with callStack := frame :: st.callStack }
      let locals1 := resizeList st.locals (frame.localStart + func.locals)
      let (locals2, stack2) := storeArgsLoop frame.localStart func.arity locals1 st.stack
      let stack3 := popExtraLoop func.arity stack2
      .ok { st with locals := locals2, stack := stack3, pc := func.address }

/-- The bootstrap frame sentinel return address. -/
def UINT32_SENTINEL : Nat := 0xFFFFFFFF

/-- VM::returnFromFunction. -/
def returnFromFunction (st : VMState) : Except String VMState :=
  match st.callStack with
  | [] => .ok { st with running := false }
  | frame :: rest =>
    let st := { st with callStack := rest }
    if frame.returnAddr = UINT32_SENTINEL then .ok { st with running := false }
    else
      let (returnValue, st) :=
        match st.stack with
        | v :: s2 => (v, { st with stack := s2 })
        | [] => (VMVal.nil, st)
      let st := { st with locals := resizeList st.locals frame.localStart }
      .ok { st with pc := frame.returnAddr, stack := returnValue :: st.stack }

/-! ## Lexer (class Lexer, src/shared/lexer.cpp)

A single pass over the source characters. Loops are driven by fuel; every
iteration of every loop consumes at least one character, so a fuel of
source length + 1 always suffices, and the concrete theorems below
evaluate the lexer only on fixed inputs. -/

inductive TokType where
  | LEFT_PAREN | RIGHT_PAREN | LEFT_BRACE | RIGHT_BRACE
  | LEFT_BRACKET | RIGHT_BRACKET | COMMA | DOT | SEMICOLON | COLON
  | BANG | BANG_EQUAL | EQUAL | EQUAL_EQUAL | GREATER | GREATER_EQUAL
  | LESS | LESS_EQUAL | PLUS | PLUS_EQUAL | MINUS | MINUS_EQUAL
  | STAR | STAR_EQUAL | SLASH | SLASH_EQUAL | MODT | MOD_EQUAL
  | IDENTIFIER | STRING | NUMBER | FLOAT
  | AND | OR | NOT | IF | ELSE | FOR | WHILE | DO | BREAK | CONTINUE
  | RETURN | TRUE | FALSE | NIL | FN | INCLUDE | INT | FLOAT_TYPE | STR
  | BOOL | BYTE | UNMUT | MUT
  | EOF_TOKEN | ERROR
deriving DecidableEq

/-- struct Token: kind, lexeme text, source position. -/
structure Token where
  type : TokType
  text : String
  line : Nat
  column : Nat

instance : Inhabited Token := ⟨⟨.ERROR, "", 0, 0⟩⟩

/-- The lexer's mutable state (tokens are appended at the back). -/
structure LexState where
  source : List Char
  start : Nat := 0
  current : Nat := 0
  line : Nat := 1
  column : Nat := 1
  tokens : List Token := []
  errors : List String := []

def nullChar : Char := Char.ofNat 0

def lexAtEnd (st : LexState) : Bool := st.source.length ≤ st.current

def sourceGet (src : List Char) (i : Nat) : Char := src.getD i nullChar

/-- Lexer::advance: consume one character, maintaining line (newline
resets column) and column. -/
def lexAdvance (st : LexState) : Char × LexState :=
  if lexAtEnd st then (nullChar, st)
  else
    let c := sourceGet st.source st.current
    let st := { st with current := st.current + 1 }
    if c = '\n' then (c, { st with line := st.line + 1, column := 1 })
    else (c, { st with column := st.column + 1 })

def lexPeek (st : LexState) : Char :=
  if lexAtEnd st then nullChar else sourceGet st.source st.current

def lexPeekNext (st : LexState) : Char :=
  if st.source.length ≤ st.current + 1 then nullChar
  else sourceGet st.source (st.current + 1)

/-- Lexer::match. -/
def lexMatch (st : LexState) (expected : Char) : Bool × LexState :=
  if lexAtEnd st then (false, st)
  else if sourceGet st.source st.current ≠ expected then (false, st)
  else (true, (lexAdvance st).2)

/-- source.substr(start, current - start). -/
def lexText (st : LexState) : String :=
  String.mk ((st.source.drop st.start).take (st.current - st.start))

/-- Lexer::addToken(type): the lexeme is the consumed substring; the
position recorded is the lexer's CURRENT line and column (after the
lexeme). -/
def addToken (st : LexState) (t : TokType) : LexState :=
  { st with tokens := st.tokens ++ [⟨t, lexText st, st.line, st.column⟩] }

/-- Lexer::addToken(type, text). -/
def addTokenText (st : LexState) (t : TokType) (text : String) : LexState :=
  { st with tokens := st.tokens ++ [⟨t, text, st.line, st.column⟩] }

def lexError (st : LexState) (msg : String) : LexState :=
  { st with errors := st.errors ++
      ["Lexer error at line " ++ toString st.line ++ ", column "
        ++ toString st.column ++ ": " ++ msg] }

/-- C isdigit restricted to the decimal digits. -/
def isDigitC (c : Char) : Bool := '0' ≤ c && c ≤ '9'

/-- C isalpha in the default locale: ASCII letters. -/
def isAlphaC (c : Char) : Bool :=
  ('a' ≤ c && c ≤ 'z') || ('A' ≤ c && c ≤ 'Z')

def isAlnumC (c : Char) : Bool := isAlphaC c || isDigitC c

/-- The keyword table built in the Lexer constructor. -/
def keywordType (t : String) : Option TokType :=
  if t = "and" then some .AND
  else if t = "or" then some .OR
  else if t = "not" then some .NOT
  else if t = "if" then some .IF
  else if t = "else" then some .ELSE
  else if t = "for" then some .FOR
  else if t = "while" then some .WHILE
  else if t = "do" then some .DO
  else if t = "break" then some .BREAK
  else if t = "continue" then some .CONTINUE
  else if t = "return" then some .RETURN
  else if t = "true" then some .TRUE
  else if t = "false" then some .FALSE
  else if t = "nil" then some .NIL
  else if t = "fn" then some .FN
  else if t = "include" then some .INCLUDE
  else if t = "int" then some .INT
  else if t = "float" then some .FLOAT_TYPE
  else if t = "str" then some .STR
  else if t = "bool" then some .BOOL
  else if t = "byte" then some .BYTE
  else if t = "unmut" then some .UNMUT
  else if t = "mut" then some .MUT
  else none

/-- The character-accumulating loop of Lexer::scanString. Note the
explicit line increment on a peeked newline, in ADDITION to the increment
advance() performs when it then consumes that same newline. -/
def scanStringLoop : Nat → LexState → List Char → LexState × List Char
  | 0, st, acc => (st, acc)
  | fuel + 1, st, acc =>
    if lexPeek st = '"' || lexAtEnd st then (st, acc)
    else
      let st :=
        if lexPeek st = '\n' then { st with line := st.line + 1, column := 1 }
        else st
      if lexPeek st = '\\' then
        let st := (lexAdvance st).2
        let e := lexPeek st
        let acc := acc ++
          (if e = 'n' then ['\n']
           else if e = 't' then ['\t']
           else if e = 'r' then ['\r']
           else if e = '"' then ['"']
           else if e = '\\' then ['\\']
           else ['\\', e])
        scanStringLoop fuel ((lexAdvance st).2) acc
      else
        let (c, st) := lexAdvance st
        scanStringLoop fuel st (acc ++ [c])

/-- Lexer::scanString. -/
def scanString (fuel : Nat) (st : LexState) : LexState :=
  let (st, value) := scanStringLoop fuel st []
  if lexAtEnd st then lexError st "Unterminated string"
  else
    let st := (lexAdvance st).2
    addTokenText st .STRING (String.mk value)

/-- The digit-consuming loop shared by Lexer::scanNumber. -/
def scanDigitsLoop : Nat → LexState → LexState
  | 0, st => st
  | fuel + 1, st =>
    if isDigitC (lexPeek st) then scanDigitsLoop fuel (lexAdvance st).2 else st

/-- Lexer::scanNumber. -/
def scanNumber (fuel : Nat) (st : LexState) : LexState :=
  let st := scanDigitsLoop fuel st
  if lexPeek st = '.' && isDigitC (lexPeekNext st) then
    let st := (lexAdvance st).2
    let st := scanDigitsLoop fuel st
    addToken st .FLOAT
  else addToken st .NUMBER

/-- The identifier-consuming loop of Lexer::scanIdentifier. -/
def scanIdentLoop : Nat → LexState → LexState
  | 0, st => st
  | fuel + 1, st =>
    if isAlnumC (lexPeek st) || lexPeek st = '_' then
      scanIdentLoop fuel (lexAdvance st).2
    else st

/-- Lexer::scanIdentifier. -/
def scanIdentifier (fuel : Nat) (st : LexState) : LexState :=
  let st := scanIdentLoop fuel st
  let text := lexText st
  match keywordType text with
  | some k => addToken st k
  | none => addTokenText st .IDENTIFIER text

/-- The comment-skipping loop of the '/' case. -/
def skipCommentLoop : Nat → LexState → LexState
  | 0, st => st
  | fuel + 1, st =>
    if lexPeek st ≠ '\n' && !lexAtEnd st then
      skipCommentLoop fuel (lexAdvance st).2
    else st

/-- Lexer::scanToken. The '\n' case increments the line counter even
though advance() (which consumed the newline) already did. -/
def scanToken (fuel : Nat) (st : LexState) : LexState :=
  let (c, st) := lexAdvance st
  if c = '(' then addToken st .LEFT_PAREN
  else if c = ')' then addToken st .RIGHT_PAREN
  else if c = '{' then addToken st .LEFT_BRACE
  else if c = '}' then addToken st .RIGHT_BRACE
  else if c = '[' then addToken st .LEFT_BRACKET
  else if c = ']' then addToken st .RIGHT_BRACKET
  else if c = ',' then addToken st .COMMA
  else if c = '.' then addToken st .DOT
  else if c = ';' then addToken st .SEMICOLON
  else if c = ':' then addToken st .COLON
  else if c = '!' then
    let (m, st) := lexMatch st '='
    addToken st (if m then .BANG_EQUAL else .BANG)
  else if c = '=' then
    let (m, st) := lexMatch st '='
    addToken st (if m then .EQUAL_EQUAL else .EQUAL)
  else if c = '>' then
    let (m, st) := lexMatch st '='
    addToken st (if m then .GREATER_EQUAL else .GREATER)
  else if c = '<' then
    let (m, st) := lexMatch st '='
    addToken st (if m then .LESS_EQUAL else .LESS)
  else if c = '+' then
    let (m, st) := lexMatch st '='
    addToken st (if m then .PLUS_EQUAL else .PLUS)
  else if c = '-' then
    let (m, st) := lexMatch st '='
    addToken st (if m then .MINUS_EQUAL else .MINUS)
  else if c = '*' then
    let (m, st) := lexMatch st '='
    addToken st (if m then .STAR_EQUAL else .STAR)
  else if c = '/' then
    let (m, st) := lexMatch st '/'
    if m then skipCommentLoop fuel st
    else
      let (m2, st) := lexMatch st '='
      if m2 then addToken st .SLASH_EQUAL else addToken st .SLASH
  else if c = '%' then
    let (m, st) := lexMatch st '='
    addToken st (if m then .MOD_EQUAL else .MODT)
  else if c = ' ' || c = '\r' || c = '\t' then st
  else if c = '\n' then { st with line := st.line + 1, column := 1 }
  else if c = '"' then scanString fuel st
  else if isDigitC c then scanNumber fuel st
  else if isAlphaC c || c = '_' then scanIdentifier fuel st
  else lexError st ("Unexpected character: " ++ String.mk [c])

/-- The main loop of Lexer::tokenize. -/
def tokenizeLoop : Nat → LexState → LexState
  | 0, st => st
  | fuel + 1, st =>
    if lexAtEnd st then st
    else tokenizeLoop fuel (scanToken fuel { st with start := st.current })

/-- Lexer::tokenize: scan to the end of the source and append the single
EOF token. -/
def tokenize (src : List Char) : LexState :=
  let st : LexState := { source := src }
  let st := tokenizeLoop (src.length + 1) st
  { st with tokens := st.tokens ++ [⟨.EOF_TOKEN, "", st.line, st.column⟩] }

/-! ## Parser (class Parser, src/shared/parser.cpp)

Recursive descent over the token list. The C++ recursion terminates by
consuming tokens; the embedding drives it with a fuel parameter instead,
and each concrete theorem evaluates the parser with ample fuel for its
fixed input. A thrown std::runtime_error is Except.error carrying both
the message and the parser state at the throw (the member state the C++
catch blocks continue from). -/

/-- The parser's mutable state. includedFiles is the side-channel include
map (most recent binding first). -/
structure PState where
  tokens : List Token
  pos : Nat := 0
  errors : List String := []
  includedFiles : List (String × String) := []

/-- Result of a parsing function: either a value with the updated state,
or a thrown error message with the state at the throw. -/
abbrev PRes (α : Type) : Type := Except (String × PState) (α × PState)

def pAtEnd (st : PState) : Bool :=
  st.tokens.length ≤ st.pos ||
    (st.tokens.getD st.pos default).type = TokType.EOF_TOKEN

/-- Parser::peek (tokens.back() at end of input). -/
def pPeek (st : PState) : Token :=
  if pAtEnd st then st.tokens.getLastD default
  else st.tokens.getD st.pos default

/-- Parser::advance: bump pos unless at end, return tokens[pos-1]. -/
def pAdvance (st : PState) : Token × PState :=
  let st2 := if ¬pAtEnd st then { st with pos := st.pos + 1 } else st
  (st2.tokens.getD (st2.pos - 1) default, st2)

def pCheck (st : PState) (t : TokType) : Bool :=
  if pAtEnd st then false else (st.tokens.getD st.pos default).type = t

/-- Parser::match. -/
def pMatch (st : PState) (t : TokType) : Bool × PState :=
  if pCheck st t then (true, (pAdvance st).2) else (false, st)

/-- Parser::error: record a positioned diagnostic. -/
def pError (st : PState) (tok : Token) (msg : String) : PState :=
  { st with errors := st.errors ++
      ["Parse error at line " ++ toString tok.line ++ ", column "
        ++ toString tok.column ++ ": " ++ msg] }

/-- Parser::consume: advance past the expected kind, else record the
diagnostic and throw. -/
def pConsume (st : PState) (t : TokType) (msg : String) : PRes Token :=
  if pCheck st t then .ok (pAdvance st)
  else .error (msg, pError st (pPeek st) msg)

/-- The scan loop of Parser::synchronize. -/
def pSyncLoop : Nat → PState → PState
  | 0, st => st
  | fuel + 1, st =>
    if pAtEnd st then st
    else if (st.tokens.getD (st.pos - 1) default).type = TokType.SEMICOLON then st
    else
      let t := (pPeek st).type
      if t = TokType.FN || t = TokType.IF || t = TokType.FOR ||
          t = TokType.WHILE || t = TokType.RETURN || t = TokType.INCLUDE then st
      else pSyncLoop fuel (pAdvance st).2

/-- Parser::synchronize. -/
def pSynchronize (fuel : Nat) (st : PState) : PState :=
  pSyncLoop fuel (pAdvance st).2

/-- Last index in cs satisfying p. -/
def lastIndexOf (cs : List Char) (p : Char → Bool) : Option Nat :=
  match cs.reverse.findIdx? p with
  | some r => some (cs.length - 1 - r)
  | none => none

/-- Parser::extractBaseName: strip any directory prefix and the last
extension. -/
def extractBaseName (path : String) : String :=
  let cs := path.data
  let fname :=
    match lastIndexOf cs (fun c => c = '/' || c = '\\') with
    | some i => cs.drop (i + 1)
    | none => cs
  let fname2 :=
    match lastIndexOf fname (fun c => c = '.') with
    | some i => fname.take i
    | none => fname
  String.mk fname2

/-- std::stoll applied to an all-digit NUMBER lexeme. -/
def stollDigits (s : String) : Int :=
  ((s.data.foldl (fun a c => a * 10 + (c.toNat - 48)) 0 : Nat) : Int)

/-- Bit pattern of std::stod on a FLOAT lexeme; IEEE parsing is not
modelled and no claim involves a float literal. -/
def stodBits (_s : String) : Nat := 0

/-- Parser::isTypeToken. -/
def isTypeTok : TokType → Bool
  | .INT => true
  | .FLOAT_TYPE => true
  | .STR => true
  | .BOOL => true
  | .BYTE => true
  | _ => false

/-- The statements of a parsed block (the dynamic cast to BlockStmt in
parseFunction; the parser only ever passes blocks here). -/
def blockStmtsOf : Option Stmt → List Stmt
  | some (.block ss) => ss
  | _ => []

/-- Parser::parseInclude: record the include in the side-channel map and
produce no statement. -/
def parseInclude (st : PState) : PRes (Option Stmt) :=
  (pConsume st .IDENTIFIER "Expected library name after 'include'").bind
    fun (nameTok, st) =>
  (pConsume st .SEMICOLON "Expected ';' after include").bind fun (_, st) =>
  .ok (none, { st with includedFiles :=
    (extractBaseName nameTok.text, nameTok.text) :: st.includedFiles })

/-- Parser::parseBreakStatement. -/
def parseBreakStatement (st : PState) : PRes (Option Stmt) :=
  (pConsume st .SEMICOLON "Expected ';' after break").bind fun (_, st) =>
  .ok (some .breakS, st)

/-- Parser::parseContinueStatement. -/
def parseContinueStatement (st : PState) : PRes (Option Stmt) :=
  (pConsume st .SEMICOLON "Expected ';' after continue").bind fun (_, st) =>
  .ok (some .continueS, st)

mutual

/-- Parser::parsePrimary. A failed match records "Expected expression" and
returns a null expression (no throw). -/
def parsePrimary : Nat → PState → PRes (Option Expr)
  | 0, st => .error ("parser fuel exhausted", st)
  | fuel + 1, st =>
    let (m, st1) := pMatch st .NUMBER
    if m then
      .ok (some (.lit (.int (stollDigits (st1.tokens.getD (st1.pos - 1) default).text))), st1)
    else
    let (m, st1) := pMatch st .FLOAT
    if m then
      .ok (some (.lit (.float (stodBits (st1.tokens.getD (st1.pos - 1) default).text))), st1)
    else
    let (m, st1) := pMatch st .STRING
    if m then
      .ok (some (.lit (.str (st1.tokens.getD (st1.pos - 1) default).text)), st1)
    else
    let (m, st1) := pMatch st .TRUE
    if m then .ok (some (.lit (.bool true)), st1)
    else
    let (m, st1) := pMatch st .FALSE
    if m then .ok (some (.lit (.bool false)), st1)
    else
    let (m, st1) := pMatch st .NIL
    if m then .ok (some (.lit .nil), st1)
    else
    let (m, st1) := pMatch st .IDENTIFIER
    if m then .ok (some (.varE (st1.tokens.getD (st1.pos - 1) default).text), st1)
    else
    let (m, st1) := pMatch st .LEFT_PAREN
    if m then
      (parseExpression fuel st1).bind fun (e, st2) =>
      (pConsume st2 .RIGHT_PAREN "Expected ')' after expression").bind fun (_, st3) =>
      .ok (e, st3)
    else .ok (none, pError st (pPeek st) "Expected expression")

/-- The postfix loop of Parser::parseCall. -/
def parseCallLoop : Nat → Option Expr → PState → PRes (Option Expr)
  | 0, _, st => .error ("parser fuel exhausted", st)
  | fuel + 1, e, st =>
    let (m, st1) := pMatch st .LEFT_PAREN
    if m then
      (finishCall fuel e st1).bind fun (e2, st2) =>
      parseCallLoop fuel e2 st2
    else
      let (m2, st2) := pMatch st .DOT
      if m2 then
        (pConsume st2 .IDENTIFIER "Expected property name after '.'").bind
          fun (nameTok, st3) =>
        parseCallLoop fuel (some (.get (e.getD .nullE) nameTok.text)) st3
      else .ok (e, st)

/-- Parser::parseCall. -/
def parseCall : Nat → PState → PRes (Option Expr)
  | 0, st => .error ("parser fuel exhausted", st)
  | fuel + 1, st =>
    (parsePrimary fuel st).bind fun (e, st) =>
    parseCallLoop fuel e st

/-- The argument loop of Parser::finishCall (a null argument expression is
pushed as such). -/
def parseArgsLoop : Nat → List Expr → PState → PRes (List Expr)
  | 0, _, st => .error ("parser fuel exhausted", st)
  | fuel + 1, acc, st =>
    (parseExpression fuel st).bind fun (e, st) =>
    let acc := acc ++ [e.getD .nullE]
    let (m, st) := pMatch st .COMMA
    if m then parseArgsLoop fuel acc st
    else .ok (acc, st)

/-- Parser::finishCall: collect arguments, then classify the callee; a
Get on a Variable receiver becomes a class call whose isNative flag is set
iff the receiver is one of the fixed host namespaces. -/
def finishCall : Nat → Option Expr → PState → PRes (Option Expr)
  | 0, _, st => .error ("parser fuel exhausted", st)
  | fuel + 1, callee, st =>
    (if ¬pCheck st .RIGHT_PAREN then parseArgsLoop fuel [] st
     else .ok ([], st)).bind fun (args, st) =>
    (pConsume st .RIGHT_PAREN "Expected ')' after arguments").bind fun (_, st) =>
    match callee with
    | some (.get obj name) =>
      match obj with
      | .varE objName =>
        let isNat := (["Console", "Math", "String", "Array", "File",
          "System"] : List String).contains objName
        .ok (some (.call objName name args isNat), st)
      | _ => .ok (some (.call "" name args true), st)
    | some (.varE vname) => .ok (some (.call "" vname args false), st)
    | _ => .ok (some (.call "" "" args false), st)

/-- Parser::parseUnary: prefix ! and - build LogicalExpr nodes with an
absent left operand. -/
def parseUnary : Nat → PState → PRes (Option Expr)
  | 0, st => .error ("parser fuel exhausted", st)
  | fuel + 1, st =>
    let (m, st1) := pMatch st .BANG
    if m then
      (parseUnary fuel st1).bind fun (r, st2) =>
      .ok (some (.logical none (st1.tokens.getD (st1.pos - 1) default).text
        (r.getD .nullE)), st2)
    else
      let (m2, st2) := pMatch st .MINUS
      if m2 then
        (parseUnary fuel st2).bind fun (r, st3) =>
        .ok (some (.logical none (st2.tokens.getD (st2.pos - 1) default).text
          (r.getD .nullE)), st3)
      else parseCall fuel st

/-- The loop of Parser::parseFactor. -/
def parseFactorLoop : Nat → Option Expr → PState → PRes (Option Expr)
  | 0, _, st => .error ("parser fuel exhausted", st)
  | fuel + 1, e, st =>
    let (m, st1) := pMatch st .STAR
    let (m, st1) := if m then (m, st1) else pMatch st1 .SLASH
    let (m, st1) := if m then (m, st1) else pMatch st1 .MODT
    if m then
      (parseUnary fuel st1).bind fun (r, st2) =>
      parseFactorLoop fuel
        (some (.binary (e.getD .nullE) (st1.tokens.getD (st1.pos - 1) default).text
          (r.getD .nullE))) st2
    else .ok (e, st)

/-- Parser::parseFactor. -/
def parseFactor : Nat → PState → PRes (Option Expr)
  | 0, st => .error ("parser fuel exhausted", st)
  | fuel + 1, st =>
    (parseUnary fuel st).bind fun (e, st) =>
    parseFactorLoop fuel e st

/-- The loop of Parser::parseTerm. -/
def parseTermLoop : Nat → Option Expr → PState → PRes (Option Expr)
  | 0, _, st => .error ("parser fuel exhausted", st)
  | fuel + 1, e, st =>
    let (m, st1) := pMatch st .PLUS
    let (m, st1) := if m then (m, st1) else pMatch st1 .MINUS
    if m then
      (parseFactor fuel st1).bind fun (r, st2) =>
      parseTermLoop fuel
        (some (.binary (e.getD .nullE) (st1.tokens.getD (st1.pos - 1) default).text
          (r.getD .nullE))) st2
    else .ok (e, st)

/-- Parser::parseTerm. -/
def parseTerm : Nat → PState → PRes (Option Expr)
  | 0, st => .error ("parser fuel exhausted", st)
  | fuel + 1, st =>
    (parseFactor fuel st).bind fun (e, st) =>
    parseTermLoop fuel e st

/-- The loop of Parser::parseComparison. -/
def parseCompLoop : Nat → Option Expr → PState → PRes (Option Expr)
  | 0, _, st => .error ("parser fuel exhausted", st)
  | fuel + 1, e, st =>
    let (m, st1) := pMatch st .GREATER
    let (m, st1) := if m then (m, st1) else pMatch st1 .GREATER_EQUAL
    let (m, st1) := if m then (m, st1) else pMatch st1 .LESS
    let (m, st1) := if m then (m, st1) else pMatch st1 .LESS_EQUAL
    if m then
      (parseTerm fuel st1).bind fun (r, st2) =>
      parseCompLoop fuel
        (some (.compare (e.getD .nullE) (st1.tokens.getD (st1.pos - 1) default).text
          (r.getD .nullE))) st2
    else .ok (e, st)

/-- Parser::parseComparison. -/
def parseComparison : Nat → PState → PRes (Option Expr)
  | 0, st => .error ("parser fuel exhausted", st)
  | fuel + 1, st =>
    (parseTerm fuel st).bind fun (e, st) =>
    parseCompLoop fuel e st

/-- The loop of Parser::parseEquality. -/
def parseEqLoop : Nat → Option Expr → PState → PRes (Option Expr)
  | 0, _, st => .error ("parser fuel exhausted", st)
  | fuel + 1, e, st =>
    let (m, st1) := pMatch st .BANG_EQUAL
    let (m, st1) := if m then (m, st1) else pMatch st1 .EQUAL_EQUAL
    if m then
      (parseComparison fuel st1).bind fun (r, st2) =>
      parseEqLoop fuel
        (some (.compare (e.getD .nullE) (st1.tokens.getD (st1.pos - 1) default).text
          (r.getD .nullE))) st2
    else .ok (e, st)

/-- Parser::parseEquality. -/
def parseEquality : Nat → PState → PRes (Option Expr)
  | 0, st => .error ("parser fuel exhausted", st)
  | fuel + 1, st =>
    (parseComparison fuel st).bind fun (e, st) =>
    parseEqLoop fuel e st

/-- The loop of Parser::parseLogicalAnd (the operator text is the fixed
string of two ampersands regardless of the keyword lexeme). -/
def parseAndLoop : Nat → Option Expr → PState → PRes (Option Expr)
  | 0, _, st => .error ("parser fuel exhausted", st)
  | fuel + 1, e, st =>
    let (m, st1) := pMatch st .AND
    if m then
      (parseEquality fuel st1).bind fun (r, st2) =>
      parseAndLoop fuel
        (some (.logical (some (e.getD .nullE)) "&&" (r.getD .nullE))) st2
    else .ok (e, st)

/-- Parser::parseLogicalAnd. -/
def parseLogicalAnd : Nat → PState → PRes (Option Expr)
  | 0, st => .error ("parser fuel exhausted", st)
  | fuel + 1, st =>
    (parseEquality fuel st).bind fun (e, st) =>
    parseAndLoop fuel e st

/-- The loop of Parser::parseLogicalOr. -/
def parseOrLoop : Nat → Option Expr → PState → PRes (Option Expr)
  | 0, _, st => .error ("parser fuel exhausted", st)
  | fuel + 1, e, st =>
    let (m, st1) := pMatch st .OR
    if m then
      (parseLogicalAnd fuel st1).bind fun (r, st2) =>
      parseOrLoop fuel
        (some (.logical (some (e.getD .nullE)) "||" (r.getD .nullE))) st2
    else .ok (e, st)

/-- Parser::parseLogicalOr. -/
def parseLogicalOr : Nat → PState → PRes (Option Expr)
  | 0, st => .error ("parser fuel exhausted", st)
  | fuel + 1, st =>
    (parseLogicalAnd fuel st).bind fun (e, st) =>
    parseOrLoop fuel e st

/-- Parser::parseAssignment: right-associative; an assignment whose target
parsed as a Variable becomes a BinaryExpr with operator "=", any other
target records "Invalid assignment target" and yields the left
expression. -/
def parseAssignment : Nat → PState → PRes (Option Expr)
  | 0, st => .error ("parser fuel exhausted", st)
  | fuel + 1, st =>
    (parseLogicalOr fuel st).bind fun (e, st) =>
    let (m, st1) := pMatch st .EQUAL
    if m then
      (parseAssignment fuel st1).bind fun (v, st2) =>
      match e with
      | some (.varE vname) =>
        .ok (some (.binary (.varE vname) "=" (v.getD .nullE)), st2)
      | _ => .ok (e, pError st2 (pPeek st2) "Invalid assignment target")
    else .ok (e, st)

/-- Parser::parseExpression. -/
def parseExpression : Nat → PState → PRes (Option Expr)
  | 0, st => .error ("parser fuel exhausted", st)
  | fuel + 1, st => parseAssignment fuel st

/-- Parser::parseVarDeclaration (returns a null statement, with a
recorded diagnostic and no throw, when the type token is missing). -/
def parseVarDeclaration : Nat → PState → PRes (Option Stmt)
  | 0, st => .error ("parser fuel exhausted", st)
  | fuel + 1, st =>
    let (m1, st) := pMatch st .UNMUT
    let (isMutable, st) :=
      if m1 then (false, st)
      else
        let (_, st2) := pMatch st .MUT
        (true, st2)
    let (typeTok, st) := pAdvance st
    if ¬isTypeTok typeTok.type then
      .ok (none, pError st typeTok "Expected type name")
    else
      (pConsume st .IDENTIFIER "Expected variable name").bind fun (nameTok, st) =>
      let (m, st) := pMatch st .EQUAL
      (if m then parseExpression fuel st else .ok (none, st)).bind fun (initE, st) =>
      (pConsume st .SEMICOLON "Expected ';' after variable declaration").bind
        fun (_, st) =>
      .ok (some (.varDecl isMutable typeTok.text nameTok.text initE), st)

/-- Parser::parseArrayDeclaration. -/
def parseArrayDeclaration : Nat → PState → PRes (Option Stmt)
  | 0, st => .error ("parser fuel exhausted", st)
  | fuel + 1, st =>
    let (typeTok, st) := pAdvance st
    (pConsume st .IDENTIFIER "Expected array name").bind fun (nameTok, st) =>
    (pConsume st .LEFT_BRACKET "Expected '[' after array name").bind fun (_, st) =>
    (if ¬pCheck st .RIGHT_BRACKET then parseExpression fuel st
     else .ok (none, st)).bind fun (size, st) =>
    (pConsume st .RIGHT_BRACKET "Expected ']' after array size").bind fun (_, st) =>
    let (m, st) := pMatch st .EQUAL
    (if m then parseExpression fuel st else .ok (none, st)).bind fun (initE, st) =>
    (pConsume st .SEMICOLON "Expected ';' after array declaration").bind
      fun (_, st) =>
    .ok (some (.arrayDecl typeTok.text nameTok.text size initE), st)

/-- The statement-collecting loop of Parser::parseBlock (null statements
are skipped). -/
def parseBlockLoop : Nat → PState → List Stmt → List Stmt × PState
  | 0, st, acc => (acc.reverse, st)
  | fuel + 1, st, acc =>
    if ¬pCheck st .RIGHT_BRACE && ¬pAtEnd st then
      let (stmt, st) := parseDeclaration fuel st
      match stmt with
      | some s => parseBlockLoop fuel st (s :: acc)
      | none => parseBlockLoop fuel st acc
    else (acc.reverse, st)

/-- Parser::parseBlock. -/
def parseBlock : Nat → PState → PRes (Option Stmt)
  | 0, st => .error ("parser fuel exhausted", st)
  | fuel + 1, st =>
    let (stmts, st) := parseBlockLoop fuel st []
    (pConsume st .RIGHT_BRACE "Expected '\x7d' after block").bind fun (_, st) =>
    .ok (some (.block stmts), st)

/-- Parser::parseIfStatement. -/
def parseIfStatement : Nat → PState → PRes (Option Stmt)
  | 0, st => .error ("parser fuel exhausted", st)
  | fuel + 1, st =>
    (pConsume st .LEFT_PAREN "Expected '(' after 'if'").bind fun (_, st) =>
    (parseExpression fuel st).bind fun (cond, st) =>
    (pConsume st .RIGHT_PAREN "Expected ')' after condition").bind fun (_, st) =>
    (parseBlock fuel st).bind fun (thenB, st) =>
    let (m, st) := pMatch st .ELSE
    if m then
      let (m2, st) := pMatch st .IF
      (if m2 then parseIfStatement fuel st else parseBlock fuel st).bind
        fun (elseB, st) =>
      .ok (some (.ifS (cond.getD .nullE) (thenB.getD .nullS)
        (some (elseB.getD .nullS))), st)
    else
      .ok (some (.ifS (cond.getD .nullE) (thenB.getD .nullS) none), st)

/-- Parser::parseWhileStatement. -/
def parseWhileStatement : Nat → PState → PRes (Option Stmt)
  | 0, st => .error ("parser fuel exhausted", st)
  | fuel + 1, st =>
    (pConsume st .LEFT_PAREN "Expected '(' after 'while'").bind fun (_, st) =>
    (parseExpression fuel st).bind fun (cond, st) =>
    (pConsume st .RIGHT_PAREN "Expected ')' after condition").bind fun (_, st) =>
    (parseStatement fuel st).bind fun (body, st) =>
    .ok (some (.whileS (cond.getD .nullE) (body.getD .nullS)), st)

/-- Parser::parseForStatement. Its initializer slot holds none both for an
absent initializer and for a failed declaration parse, exactly like the
null pointer in the C++ member. -/
def parseForStatement : Nat → PState → PRes (Option Stmt)
  | 0, st => .error ("parser fuel exhausted", st)
  | fuel + 1, st =>
    (pConsume st .LEFT_PAREN "Expected '(' after 'for'").bind fun (_, st) =>
    let (m, st) := pMatch st .SEMICOLON
    (if m then (.ok (none, st) : PRes (Option Stmt))
     else
      let savedPos := st.pos
      let (m1, st2) := pMatch st .UNMUT
      let (_, st2) := if m1 then (true, st2) else pMatch st2 .MUT
      let isType := isTypeTok (pPeek st2).type
      let st3 := { st2 with pos := savedPos }
      if isType then parseVarDeclaration fuel st3
      else
        (parseExpression fuel st3).bind fun (e, st4) =>
        (pConsume st4 .SEMICOLON "Expected ';' after for initializer").bind
          fun (_, st5) =>
        .ok (some (.exprS (e.getD .nullE)), st5)).bind fun (initS, st) =>
    (if ¬pCheck st .SEMICOLON then parseExpression fuel st
     else .ok (none, st)).bind fun (cond, st) =>
    (pConsume st .SEMICOLON "Expected ';' after for condition").bind fun (_, st) =>
    (if ¬pCheck st .RIGHT_PAREN then parseExpression fuel st
     else .ok (none, st)).bind fun (inc, st) =>
    (pConsume st .RIGHT_PAREN "Expected ')' after for clauses").bind fun (_, st) =>
    (parseStatement fuel st).bind fun (body, st) =>
    .ok (some (.forS initS cond inc (body.getD .nullS)), st)

/-- Parser::parseReturnStatement. -/
def parseReturnStatement : Nat → PState → PRes (Option Stmt)
  | 0, st => .error ("parser fuel exhausted", st)
  | fuel + 1, st =>
    (if ¬pCheck st .SEMICOLON then parseExpression fuel st
     else .ok (none, st)).bind fun (v, st) =>
    (pConsume st .SEMICOLON "Expected ';' after return").bind fun (_, st) =>
    .ok (some (.ret v), st)

/-- Parser::parseStatement. After the speculative unmut/mut match, pos is
restored only on the type-token path, exactly as in the source. -/
def parseStatement : Nat → PState → PRes (Option Stmt)
  | 0, st => .error ("parser fuel exhausted", st)
  | fuel + 1, st =>
    let (m, st1) := pMatch st .IF
    if m then parseIfStatement fuel st1 else
    let (m, st1) := pMatch st .WHILE
    if m then parseWhileStatement fuel st1 else
    let (m, st1) := pMatch st .FOR
    if m then parseForStatement fuel st1 else
    let (m, st1) := pMatch st .RETURN
    if m then parseReturnStatement fuel st1 else
    let (m, st1) := pMatch st .BREAK
    if m then
      match parseBreakStatement st1 with
      | .ok r => .ok r
      | .error e => .error e
    else
    let (m, st1) := pMatch st .CONTINUE
    if m then
      match parseContinueStatement st1 with
      | .ok r => .ok r
      | .error e => .error e
    else
    let (m, st1) := pMatch st .LEFT_BRACE
    if m then parseBlock fuel st1 else
    let savedPos := st.pos
    let (m1, st2) := pMatch st .UNMUT
    let (_, st2) := if m1 then (true, st2) else pMatch st2 .MUT
    if isTypeTok (pPeek st2).type then
      parseVarDeclaration fuel { st2 with pos := savedPos }
    else if pCheck st2 .IDENTIFIER && st2.pos + 1 < st2.tokens.length &&
        (st2.tokens.getD (st2.pos + 1) default).type = TokType.LEFT_BRACKET then
      parseArrayDeclaration fuel st2
    else
      (parseExpression fuel st2).bind fun (e, st3) =>
      (pConsume st3 .SEMICOLON "Expected ';' after expression").bind fun (_, st4) =>
      .ok (some (.exprS (e.getD .nullE)), st4)

/-- The parameter loop of Parser::parseFunction. -/
def parseParamsLoop : Nat → List (String × String) → PState →
    PRes (List (String × String))
  | 0, _, st => .error ("parser fuel exhausted", st)
  | fuel + 1, acc, st =>
    let typeTok := pPeek st
    if ¬isTypeTok typeTok.type then
      .error ("Expected parameter type",
        pError st typeTok
          ("Expected parameter type (int, float, str, bool, byte), got: '"
            ++ typeTok.text ++ "'"))
    else
      let (_, st) := pAdvance st
      (pConsume st .IDENTIFIER "Expected parameter name").bind fun (paramTok, st) =>
      let acc := acc ++ [(typeTok.text, paramTok.text)]
      let (m, st) := pMatch st .COMMA
      if m then parseParamsLoop fuel acc st
      else .ok (acc, st)

/-- Parser::parseFunction. -/
def parseFunction : Nat → PState → PRes (Option Stmt)
  | 0, st => .error ("parser fuel exhausted", st)
  | fuel + 1, st =>
    (pConsume st .IDENTIFIER "Expected function name").bind fun (nameTok, st) =>
    (pConsume st .LEFT_PAREN "Expected '(' after function name").bind fun (_, st) =>
    (if ¬pCheck st .RIGHT_PAREN then parseParamsLoop fuel [] st
     else .ok ([], st)).bind fun (params, st) =>
    (pConsume st .RIGHT_PAREN "Expected ')' after parameters").bind fun (_, st) =>
    (pConsume st .LEFT_BRACE "Expected '\x7b' before function body").bind fun (_, st) =>
    (parseBlock fuel st).bind fun (body, st) =>
    .ok (some (.funcS nameTok.text params (blockStmtsOf body)), st)

/-- Parser::parseDeclaration: dispatch to include / function / statement,
catching any thrown error by recording it, synchronizing and producing a
null statement. -/
def parseDeclaration : Nat → PState → Option Stmt × PState
  | 0, st => (none, st)
  | fuel + 1, st =>
    let r : PRes (Option Stmt) :=
      let (m, st2) := pMatch st .INCLUDE
      if m then parseInclude st2
      else
        let (m2, st3) := pMatch st2 .FN
        if m2 then parseFunction fuel st3
        else parseStatement fuel st3
    match r with
    | .ok (stmt, st2) => (stmt, st2)
    | .error (msg, stE) =>
      (none, pSynchronize fuel { stE with errors := stE.errors ++ [msg] })

end

/-- The main loop of Parser::parse (null statements are skipped). -/
def parseLoop : Nat → PState → List Stmt → List Stmt × PState
  | 0, st, acc => (acc.reverse, st)
  | fuel + 1, st, acc =>
    if pAtEnd st then (acc.reverse, st)
    else
      let (stmt, st) := parseDeclaration fuel st
      match stmt with
      | some s => parseLoop fuel st (s :: acc)
      | none => parseLoop fuel st acc

/-- Parser::parse over a token list (fuel amply exceeding any recursion
the fixed inputs of the theorems need). -/
def parseProgram (tokens : List Token) : List Stmt × PState :=
  parseLoop ((tokens.length + 2) * (tokens.length + 2)) { tokens := tokens } []

/-! ## Operand type predicates (the type tests the arithmetic opcodes
perform) -/

/-- Both operands int, or both float (the accepted pairs of opSub, opMul
and the type branch of opDiv). -/
def sameNumeric (a b : VMVal) : Bool :=
  match a, b with
  | .int _, .int _ => true
  | .float _, .float _ => true
  | _, _ => false

/-- int or float. -/
def VMVal.isNumeric : VMVal → Bool
  | .int _ => true
  | .float _ => true
  | _ => false

/-- Both operands int (the accepted pair of opMod). -/
def bothInt (a b : VMVal) : Bool :=
  match a, b with
  | .int _, .int _ => true
  | _, _ => false

/-! ## Concrete programs, token lists and machine states the claim
theorems evaluate the embedding on -/

/-- Source: fn Main with a single for loop carrying condition false and
an empty block body (and no initializer or increment). -/
def astForLoop : List Stmt :=
  [.funcS "Main" [] [.forS none (some (.lit (.bool false))) none (.block [])]]

/-- The token stream of the statement x = 2; . -/
def tokensAssign : List Token :=
  [⟨.IDENTIFIER, "x", 1, 1⟩, ⟨.EQUAL, "=", 1, 3⟩, ⟨.NUMBER, "2", 1, 5⟩,
   ⟨.SEMICOLON, ";", 1, 6⟩, ⟨.EOF_TOKEN, "", 1, 7⟩]

/-- Source: fn Main declaring int x = 1 and then assigning x = 2, as the
parser delivers it (the assignment statement parses to an expression
statement holding a BinaryExpr with operator "="). -/
def astAssign : List Stmt :=
  [.funcS "Main" []
    [.varDecl true "int" "x" (some (.lit (.int 1))),
     .exprS (.binary (.varE "x") "=" (.lit (.int 2)))]]

/-- Source: fn Main declaring int a = 1 and then, inside a nested block,
int b = 2. -/
def astNestedBlock : List Stmt :=
  [.funcS "Main" []
    [.varDecl true "int" "a" (some (.lit (.int 1))),
     .block [.varDecl true "int" "b" (some (.lit (.int 2)))]]]

/-- Two-line source: an identifier, a newline, an identifier. -/
def srcTwoLines : List Char := ['a', '\n', 'b']

/-- A function table: Main (locals 1) and f at address 10 with arity 1 and
one local slot. -/
def vmFunctions : List FunctionInfo :=
  [⟨strBytes "Main", 0, 0, 1⟩, ⟨strBytes "f", 10, 1, 1⟩]

/-- Main mid-execution: its local slot 0 holds 7, the argument 2 for a
call to f is on the operand stack. -/
def vmBeforeCall : VMState := { pc := 3, stack := [.int 2], locals := [.int 7] }

/-- Like vmBeforeCall, but a further value 1 sits under the argument (the
caller is mid-way through evaluating 1 + f(2)). -/
def vmBeforeCallDeep : VMState :=
  { pc := 3, stack := [.int 2, .int 1], locals := [.int 7] }

/-- An operand stack holding nil on top of bool true: operands accepted by
no arithmetic opcode. -/
def addBadOperands : VMState := { stack := [.nil, .bool true] }

/-- A VM state with one value on the operand stack and one local slot. -/
def vmStoreState : VMState := { stack := [.int 5], locals := [.nil] }

/-- A small image exercising every section of the wire format. -/
def bcSample : BytecodeFile :=
  ⟨magicTAIL, 1, 0,
   [⟨OP_PUSH, 0⟩, ⟨OP_HALT, 0⟩],
   [.int 5, .bool true, .str 0, .nil, .float 3, .int (-7)],
   [[104, 105]],
   [[1, -2]],
   [[7]],
   [[[104]]],
   [⟨strBytes "Main", 0, 0, 1⟩],
   [strBytes "Console.println"]⟩

/-! # Theorems

First the codec lemmas feeding the round-trip result, then the claim
theorems. -/

theorem writeLE_length (k v : Nat) : (writeLE k v).length = k := by
  induction k generalizing v with
  | zero => rfl
  | succ k ih => simp [writeLE, ih]

theorem readLE_writeLE (k v : Nat) (r : List Nat) (h : v < 256 ^ k) :
    readLE k (writeLE k v ++ r) = some (v, r) := by
  induction k generalizing v with
  | zero =>
    have : v = 0 := by simpa using h
    simp [writeLE, readLE, this]
  | succ k ih =>
    have hv : v / 256 < 256 ^ k := by
      rw [Nat.div_lt_iff_lt_mul (by norm_num)]
      calc v < 256 ^ (k + 1) := h
        _ = 256 ^ k * 256 := by ring
    show readLE (k + 1) (v % 256 :: (writeLE k (v / 256) ++ r)) = some (v, r)
    simp only [readLE, ih _ hv]
    show some (v % 256 + 256 * (v / 256), r) = some (v, r)
    rw [Nat.mod_add_div]

theorem readBytes_append (s r : List Nat) :
    readBytes s.length (s ++ r) = some (s, r) := by
  induction s with
  | nil => rfl
  | cons b s ih => simp [readBytes, ih]

theorem readCount_flatten (rd : List Nat → Option (α × List Nat))
    (f : α → List Nat) (xs : List α) (r : List Nat)
    (h : ∀ x ∈ xs, ∀ r2, rd (f x ++ r2) = some (x, r2)) :
    readCount rd xs.length ((xs.map f).flatten ++ r) = some (xs, r) := by
  induction xs with
  | nil => rfl
  | cons x xs ih =>
    have hx := h x (by simp) ((xs.map f).flatten ++ r)
    have hrec := ih (fun y hy r2 => h y (by simp [hy]) r2)
    simp only [List.map_cons, List.flatten_cons, List.append_assoc,
      List.length_cons, readCount, hx, hrec]

theorem int64Bits_lt (v : Int) : int64Bits v < 2 ^ 64 := by
  unfold int64Bits
  have h1 : 0 ≤ v % ((2 : Int) ^ 64) := Int.emod_nonneg v (by norm_num)
  have h2 : v % ((2 : Int) ^ 64) < 2 ^ 64 := Int.emod_lt_of_pos v (by norm_num)
  omega

theorem decodeInt64_int64Bits (v : Int) (h1 : -(2 ^ 63) ≤ v) (h2 : v < 2 ^ 63) :
    decodeInt64 (int64Bits v) = v := by
  unfold decodeInt64 int64Bits
  rcases le_or_lt 0 v with hv | hv
  · have h3 : v % ((2 : Int) ^ 64) = v := by omega
    rw [h3, if_pos]
    · exact Int.toNat_of_nonneg hv
    · have : (v.toNat : Int) = v := Int.toNat_of_nonneg hv
      omega
  · have h3 : v % ((2 : Int) ^ 64) = v + 2 ^ 64 := by omega
    rw [h3]
    have hnn : (0 : Int) ≤ v + 2 ^ 64 := by omega
    have h4 : ((v + 2 ^ 64).toNat : Int) = v + 2 ^ 64 := Int.toNat_of_nonneg hnn
    rw [if_neg, h4]
    · omega
    · omega

theorem decodeInt64_int64Bits_witness : decodeInt64 (int64Bits (-7)) = -7 :=
  decodeInt64_int64Bits (-7) (by norm_num) (by norm_num)

theorem readInstr_serializeInstr (i : Instr) (r : List Nat) (h : instrWF i) :
    readInstr (serializeInstr i ++ r) = some (i, r) := by
  obtain ⟨h1, h2⟩ := h
  simp [serializeInstr, readInstr, readLE_writeLE 4 i.operand r h2,
    Nat.mod_eq_of_lt h1]

theorem readConst_serializeConst (c : ConstVal) (r : List Nat) (h : constWF c) :
    readConst (serializeConst c ++ r) = some (c, r) := by
  cases c with
  | nil =>
    show readConst (ConstVal.tag .nil :: (List.replicate 8 0 ++ r)) = some (.nil, r)
    have hb := readBytes_append (List.replicate 8 0) r
    rw [List.length_replicate] at hb
    simp only [ConstVal.tag, readConst, hb, if_pos]
  | int v =>
    obtain ⟨hl, hr⟩ := h
    have h8 := readLE_writeLE 8 (int64Bits v) r (int64Bits_lt v)
    simp [serializeConst, ConstVal.tag, readConst, h8,
      decodeInt64_int64Bits v hl hr]
  | float bits =>
    have h8 := readLE_writeLE 8 bits r h
    simp [serializeConst, ConstVal.tag, readConst, h8]
  | bool b =>
    cases b <;> simp [serializeConst, ConstVal.tag, readConst]
  | str i =>
    have h4 := readLE_writeLE 4 i r h
    simp [serializeConst, ConstVal.tag, readConst, h4]
  | arrInt i =>
    have h4 := readLE_writeLE 4 i r h
    simp [serializeConst, ConstVal.tag, readConst, h4]
  | arrFloat i =>
    have h4 := readLE_writeLE 4 i r h
    simp [serializeConst, ConstVal.tag, readConst, h4]
  | arrStr i =>
    have h4 := readLE_writeLE 4 i r h
    simp [serializeConst, ConstVal.tag, readConst, h4]

theorem readLStr_serializeLStr (s : List Nat) (r : List Nat)
    (h : s.length < 2 ^ 32) : readLStr (serializeLStr s ++ r) = some (s, r) := by
  have h4 := readLE_writeLE 4 s.length (s ++ r) h
  simp [serializeLStr, readLStr, List.append_assoc, h4, readBytes_append]

theorem readIntArray_serializeIntArray (a : List Int) (r : List Nat)
    (hl : a.length < 2 ^ 32) (he : ∀ v ∈ a, -(2 ^ 63) ≤ v ∧ v < 2 ^ 63) :
    readIntArray (serializeIntArray a ++ r) = some (a, r) := by
  have h4 := readLE_writeLE 4 a.length
    ((a.map (fun v => writeLE 8 (int64Bits v))).flatten ++ r) hl
  have hc := readCount_flatten
    (fun b => match readLE 8 b with
      | some (n, r2) => some (decodeInt64 n, r2)
      | none => none)
    (fun v => writeLE 8 (int64Bits v)) a r
    (fun v hv r2 => by
      show (match readLE 8 (writeLE 8 (int64Bits v) ++ r2) with
        | some (n, r3) => some (decodeInt64 n, r3)
        | none => none) = some (v, r2)
      rw [readLE_writeLE 8 (int64Bits v) r2 (int64Bits_lt v)]
      simp [decodeInt64_int64Bits v (he v hv).1 (he v hv).2])
  simp [serializeIntArray, readIntArray, List.append_assoc, h4, hc]

theorem readFloatArray_serializeFloatArray (a : List Nat) (r : List Nat)
    (hl : a.length < 2 ^ 32) (he : ∀ v ∈ a, v < 2 ^ 64) :
    readFloatArray (serializeFloatArray a ++ r) = some (a, r) := by
  have h4 := readLE_writeLE 4 a.length ((a.map (fun v => writeLE 8 v)).flatten ++ r) hl
  have hc := readCount_flatten (readLE 8) (fun v => writeLE 8 v) a r
    (fun v hv r2 => readLE_writeLE 8 v r2 (he v hv))
  simp [serializeFloatArray, readFloatArray, List.append_assoc, h4, hc]

theorem readStrArray_serializeStrArray (a : List (List Nat)) (r : List Nat)
    (hl : a.length < 2 ^ 32) (he : ∀ s ∈ a, s.length < 2 ^ 32) :
    readStrArray (serializeStrArray a ++ r) = some (a, r) := by
  have h4 := readLE_writeLE 4 a.length ((a.map serializeLStr).flatten ++ r) hl
  have hc := readCount_flatten readLStr serializeLStr a r
    (fun s hs r2 => readLStr_serializeLStr s r2 (he s hs))
  simp [serializeStrArray, readStrArray, List.append_assoc, h4, hc]

theorem readFunc_serializeFunc (f : FunctionInfo) (r : List Nat) (h : funcWF f) :
    readFunc (serializeFunc f ++ r) = some (f, r) := by
  obtain ⟨h1, h2, h3, h4⟩ := h
  have hm3 : f.arity % 256 = f.arity := Nat.mod_eq_of_lt h3
  have hm4 : f.locals % 256 = f.locals := Nat.mod_eq_of_lt h4
  have e1 := readLE_writeLE 4 f.name.length
    (f.name ++ (writeLE 4 f.address ++ (f.arity :: f.locals :: r))) h1
  have e2 := readBytes_append f.name (writeLE 4 f.address ++ (f.arity :: f.locals :: r))
  have e3 := readLE_writeLE 4 f.address (f.arity :: f.locals :: r) h2
  simp [serializeFunc, readFunc, List.append_assoc, List.cons_append, hm3, hm4,
    e1, e2, e3]

theorem readSection_roundtrip (rd : List Nat → Option (α × List Nat))
    (f : α → List Nat) (xs : List α) (r : List Nat) (hl : xs.length < 2 ^ 32)
    (h : ∀ x ∈ xs, ∀ r2, rd (f x ++ r2) = some (x, r2)) :
    readSection rd (writeLE 4 xs.length ++ ((xs.map f).flatten ++ r)) = some (xs, r) := by
  unfold readSection
  rw [readLE_writeLE 4 xs.length ((xs.map f).flatten ++ r) hl]
  exact readCount_flatten rd f xs r h

theorem flatten_map_length_eq (f : α → List Nat) (k : Nat)
    (hf : ∀ x, (f x).length = k) (l : List α) :
    ((l.map f).flatten).length = k * l.length := by
  induction l with
  | nil => simp
  | cons x l ih => simp [hf, ih]; ring

set_option maxHeartbeats 2000000 in
/-- C5: for every in-memory image carrying the TAIL magic (and respecting
the bounds its C++ field types impose), deserializing its serialization
succeeds and returns the image field-by-field. -/
theorem C5_serialize_roundtrip (b : BytecodeFile) (hm : b.magic = magicTAIL)
    (h : b.WF) : deserialize (serialize b) = some b := by
  unfold BytecodeFile.WF at h
  obtain ⟨h1, h2, h3, h4, h5, h6, h7, h8, h9, h10, h11, h12, h13, h14, h15, h16,
    h17, h18⟩ := h
  have hmagic : b.magic < 2 ^ 32 := by rw [hm]; norm_num [magicTAIL]
  have hv16 : b.version < 256 ^ 2 := by omega
  have hf16 : b.flags < 256 ^ 2 := by omega
  have einstr : ∀ r, readCount readInstr b.code.length
      ((b.code.map serializeInstr).flatten ++ r) = some (b.code, r) :=
    fun r => readCount_flatten readInstr serializeInstr b.code r
      (fun i hi r2 => readInstr_serializeInstr i r2 (h4 i hi))
  have econst : ∀ r, readSection readConst (writeLE 4 b.constants.length ++
      ((b.constants.map serializeConst).flatten ++ r)) = some (b.constants, r) :=
    fun r => readSection_roundtrip readConst serializeConst b.constants r h5
      (fun c hc r2 => readConst_serializeConst c r2 (h6 c hc))
  have estr : ∀ r, readSection readLStr (writeLE 4 b.strings.length ++
      ((b.strings.map serializeLStr).flatten ++ r)) = some (b.strings, r) :=
    fun r => readSection_roundtrip readLStr serializeLStr b.strings r h7
      (fun s hs r2 => readLStr_serializeLStr s r2 (h8 s hs))
  have eia : ∀ r, readSection readIntArray (writeLE 4 b.intArrays.length ++
      ((b.intArrays.map serializeIntArray).flatten ++ r)) = some (b.intArrays, r) :=
    fun r => readSection_roundtrip readIntArray serializeIntArray b.intArrays r h9
      (fun a ha r2 => readIntArray_serializeIntArray a r2 (h10 a ha).1 (h10 a ha).2)
  have efa : ∀ r, readSection readFloatArray (writeLE 4 b.floatArrays.length ++
      ((b.floatArrays.map serializeFloatArray).flatten ++ r)) = some (b.floatArrays, r) :=
    fun r => readSection_roundtrip readFloatArray serializeFloatArray b.floatArrays r h11
      (fun a ha r2 => readFloatArray_serializeFloatArray a r2 (h12 a ha).1 (h12 a ha).2)
  have esa : ∀ r, readSection readStrArray (writeLE 4 b.stringArrays.length ++
      ((b.stringArrays.map serializeStrArray).flatten ++ r)) = some (b.stringArrays, r) :=
    fun r => readSection_roundtrip readStrArray serializeStrArray b.stringArrays r h13
      (fun a ha r2 => readStrArray_serializeStrArray a r2 (h14 a ha).1 (h14 a ha).2)
  have efn : ∀ r, readSection readFunc (writeLE 4 b.functions.length ++
      ((b.functions.map serializeFunc).flatten ++ r)) = some (b.functions, r) :=
    fun r => readSection_roundtrip readFunc serializeFunc b.functions r h15
      (fun f hf r2 => readFunc_serializeFunc f r2 (h16 f hf))
  have eni : ∀ r, readSection readLStr (writeLE 4 b.nativeImports.length ++
      ((b.nativeImports.map serializeLStr).flatten ++ r)) = some (b.nativeImports, r) :=
    fun r => readSection_roundtrip readLStr serializeLStr b.nativeImports r h17
      (fun s hs r2 => readLStr_serializeLStr s r2 (h18 s hs))
  have hinstrlen : ((b.code.map serializeInstr).flatten).length = 5 * b.code.length :=
    flatten_map_length_eq serializeInstr 5
      (fun i => by simp [serializeInstr, writeLE_length]) b.code
  unfold serialize deserialize
  simp only [List.append_assoc]
  rw [if_neg (by simp only [List.length_append, writeLE_length]; omega)]
  rw [readLE_writeLE 4 b.magic _ hmagic]
  simp only [Option.some_bind]
  rw [if_neg (not_ne_iff.mpr hm)]
  rw [readLE_writeLE 2 b.version _ hv16]
  simp only [Option.some_bind]
  rw [readLE_writeLE 2 b.flags _ hf16]
  simp only [Option.some_bind]
  rw [readLE_writeLE 4 b.code.length _ h3]
  simp only [Option.some_bind]
  rw [if_neg (by simp only [List.length_append, hinstrlen]; omega)]
  rw [einstr]
  simp only [Option.some_bind]
  rw [econst]
  simp only [Option.some_bind]
  rw [estr]
  simp only [Option.some_bind]
  rw [eia]
  simp only [Option.some_bind]
  rw [efa]
  simp only [Option.some_bind]
  rw [esa]
  simp only [Option.some_bind]
  rw [efn]
  simp only [Option.some_bind]
  rw [show (List.map serializeLStr b.nativeImports).flatten =
    (List.map serializeLStr b.nativeImports).flatten ++ [] from
    (List.append_nil _).symm]
  rw [eni]
  simp only [Option.some_bind]

/-- Witness: the round trip at a concrete image populating every
section. -/
theorem C5_serialize_roundtrip_witness :
    bcSample.magic = magicTAIL ∧ bcSample.WF ∧
    deserialize (serialize bcSample) = some bcSample :=
  ⟨rfl, by decide, C5_serialize_roundtrip bcSample rfl (by decide)⟩

theorem resizeList_length (l : List VMVal) (n : Nat) :
    (resizeList l n).length = n := by
  unfold resizeList
  by_cases h : n ≤ l.length <;> simp [h] <;> omega

/-- C10: OP_STORE (when the slot index is in range) and OP_STORE_GLOBAL
copy the top of the operand stack into the target slot without popping:
the stack is unchanged, the stored value on top, and the slot holds it. -/
theorem C10_store_opcodes_preserve_stack (st : VMState) (idx : Nat) (v : VMVal)
    (rest : List VMVal) (hstack : st.stack = v :: rest)
    (hidx : idx < st.locals.length) :
    (∃ st2, opStore idx st = .ok st2 ∧ st2.stack = st.stack ∧
      st2.locals.getD idx .nil = v) ∧
    (∃ st3, opStoreGlobal idx st = .ok st3 ∧ st3.stack = st.stack ∧
      st3.globals.getD idx .nil = v) := by
  obtain ⟨pc, stack, globals, locals, cs, run, strs⟩ := st
  simp only at hstack hidx
  subst hstack
  have hle : ¬ (locals.length ≤ idx) := Nat.not_le.mpr hidx
  constructor
  · refine ⟨⟨pc, v :: rest, globals, locals.set idx v, cs, run, strs⟩, ?_, rfl, ?_⟩
    · simp [opStore, vmPeek, hle, Bind.bind, Except.bind]
    · simp [List.getD, List.getElem?_set_self', hidx]
  · by_cases hg : globals.length ≤ idx
    · refine ⟨⟨pc, v :: rest, (resizeList globals (idx + 1)).set idx v, locals,
        cs, run, strs⟩, ?_, rfl, ?_⟩
      · simp [opStoreGlobal, vmPeek, hg, Bind.bind, Except.bind]
      · have hlen : (resizeList globals (idx + 1)).length = idx + 1 :=
          resizeList_length globals (idx + 1)
        simp [List.getD, List.getElem?_set_self', hlen]
    · refine ⟨⟨pc, v :: rest, globals.set idx v, locals, cs, run, strs⟩, ?_, rfl, ?_⟩
      · simp [opStoreGlobal, vmPeek, hg, Bind.bind, Except.bind]
      · simp [List.getD, List.getElem?_set_self', Nat.not_le.mp hg]

/-- Witness: the store opcodes on a concrete one-value stack and one local
slot. -/
theorem C10_store_opcodes_witness :
    (∃ st2, opStore 0 vmStoreState = .ok st2 ∧ st2.stack = vmStoreState.stack ∧
      st2.locals.getD 0 .nil = .int 5) ∧
    (∃ st3, opStoreGlobal 0 vmStoreState = .ok st3 ∧
      st3.stack = vmStoreState.stack ∧ st3.globals.getD 0 .nil = .int 5) :=
  C10_store_opcodes_preserve_stack vmStoreState 0 (.int 5) [] rfl (by decide)

theorem opSub_invalid_types (st : VMState) (a b : VMVal) (rest : List VMVal)
    (hstack : st.stack = b :: a :: rest) (hn : sameNumeric a b = false) :
    ∃ e, opSub st = .error e := by
  obtain ⟨pc, stack, globals, locals, cs, run, strs⟩ := st
  simp only at hstack
  subst hstack
  cases a <;> cases b <;>
    simp_all [opSub, vmPop, sameNumeric, Bind.bind, Except.bind]

theorem opMul_invalid_types (st : VMState) (a b : VMVal) (rest : List VMVal)
    (hstack : st.stack = b :: a :: rest) (hn : sameNumeric a b = false) :
    ∃ e, opMul st = .error e := by
  obtain ⟨pc, stack, globals, locals, cs, run, strs⟩ := st
  simp only at hstack
  subst hstack
  cases a <;> cases b <;>
    simp_all [opMul, vmPop, sameNumeric, Bind.bind, Except.bind]

theorem opDiv_invalid_types (st : VMState) (a b : VMVal) (rest : List VMVal)
    (hstack : st.stack = b :: a :: rest) (hn : sameNumeric a b = false) :
    ∃ e, opDiv st = .error e := by
  obtain ⟨pc, stack, globals, locals, cs, run, strs⟩ := st
  simp only at hstack
  subst hstack
  cases a <;> cases b <;>
    simp_all [opDiv, vmPop, sameNumeric, VMVal.isIntZero, VMVal.isFloatZero,
      Bind.bind, Except.bind] <;>
    (try split) <;> simp_all

theorem opDiv_zero_divisor (st : VMState) (a b : VMVal) (rest : List VMVal)
    (hstack : st.stack = b :: a :: rest)
    (hz : (b.isIntZero || b.isFloatZero) = true) :
    ∃ e, opDiv st = .error e := by
  obtain ⟨pc, stack, globals, locals, cs, run, strs⟩ := st
  simp only at hstack
  subst hstack
  cases b <;>
    simp_all [opDiv, vmPop, VMVal.isIntZero, VMVal.isFloatZero,
      Bind.bind, Except.bind]

theorem opMod_invalid_types (st : VMState) (a b : VMVal) (rest : List VMVal)
    (hstack : st.stack = b :: a :: rest) (hn : bothInt a b = false) :
    ∃ e, opMod st = .error e := by
  obtain ⟨pc, stack, globals, locals, cs, run, strs⟩ := st
  simp only at hstack
  subst hstack
  cases a <;> cases b <;>
    simp_all [opMod, vmPop, bothInt, Bind.bind, Except.bind]

theorem opMod_zero_divisor (st : VMState) (a : VMVal) (rest : List VMVal)
    (hstack : st.stack = VMVal.int 0 :: a :: rest) :
    (∃ x, a = VMVal.int x) → ∃ e, opMod st = .error e := by
  obtain ⟨pc, stack, globals, locals, cs, run, strs⟩ := st
  simp only at hstack
  subst hstack
  rintro ⟨x, rfl⟩
  simp [opMod, vmPop, Bind.bind, Except.bind]

theorem opAdd_bad_types_push_nil (st : VMState) (a b : VMVal) (rest : List VMVal)
    (hstack : st.stack = b :: a :: rest)
    (hn : (a.isNumeric && b.isNumeric) = false)
    (ha : a.isStr = false) (hb : b.isStr = false) :
    opAdd st = .ok { st with stack := VMVal.nil :: rest } := by
  obtain ⟨pc, stack, globals, locals, cs, run, strs⟩ := st
  simp only at hstack
  subst hstack
  cases a <;> cases b <;>
    simp_all [opAdd, vmPop, vmPush, VMVal.isNumeric, VMVal.isStr,
      Bind.bind, Except.bind]

/-- C8 (amended): with operands a below b on the stack, SUB and MUL raise
a runtime error whenever the pair is not same-numeric; DIV raises on a
zero divisor and on any non-same-numeric pair; MOD raises whenever the
operands are not two ints, and on a zero int divisor; every such error
terminates the VM. ADD however, applied to operands that are neither a
numeric pair nor involve a string, raises no error: it pushes nil and
continues. -/
theorem C8_arith_type_discipline (st : VMState) (a b : VMVal) (rest : List VMVal)
    (hstack : st.stack = b :: a :: rest) :
    (sameNumeric a b = false →
      (∃ e, opSub st = .error e) ∧ (∃ e, opMul st = .error e) ∧
      (∃ e, opDiv st = .error e)) ∧
    ((b.isIntZero || b.isFloatZero) = true → ∃ e, opDiv st = .error e) ∧
    (bothInt a b = false → ∃ e, opMod st = .error e) ∧
    (b = VMVal.int 0 → (∃ x, a = VMVal.int x) → ∃ e, opMod st = .error e) ∧
    ((a.isNumeric && b.isNumeric) = false → a.isStr = false → b.isStr = false →
      opAdd st = .ok { st with stack := VMVal.nil :: rest }) := by
  refine ⟨fun hn => ⟨opSub_invalid_types st a b rest hstack hn,
      opMul_invalid_types st a b rest hstack hn,
      opDiv_invalid_types st a b rest hstack hn⟩,
    fun hz => opDiv_zero_divisor st a b rest hstack hz,
    fun hn => opMod_invalid_types st a b rest hstack hn,
    fun hb0 hax => ?_,
    fun hn ha hb => opAdd_bad_types_push_nil st a b rest hstack hn ha hb⟩
  subst hb0
  exact opMod_zero_divisor st a rest hstack hax

/-- Witness: the amended discipline at nil over bool true (a pair outside
every opcode's accepted types). -/
theorem C8_arith_type_discipline_witness :
    ∃ e, opSub addBadOperands = .error e :=
  ((C8_arith_type_discipline addBadOperands (.bool true) .nil [] rfl).1
    (by decide)).1

/-- Counterexample to C8 as stated: ADD applied to bool true below nil —
both outside its accepted operand types — raises no runtime error; it
pushes nil and succeeds. -/
theorem C8_add_bad_types_no_error :
    opAdd addBadOperands = .ok { stack := [VMVal.nil] } := rfl

/-- Counterexample to C7 as stated: a serialized bool constant record is 2
bytes (tag plus a single payload byte), not 9, and a string constant
record is 5 bytes (tag plus a 4-byte index) with no padding. -/
theorem C7_bool_and_string_records_not_nine_bytes :
    (serializeConst (ConstVal.bool true)).length = 2 ∧
    (serializeConst (ConstVal.str 0)).length = 5 := ⟨rfl, rfl⟩

/-- C7 (amended): every constant record is a 1-byte tag followed by a
payload whose width depends on the tag: 8 bytes for int, float and nil
(record length 9), a single byte for bool (record length 2), and a 4-byte
string or array index with no padding (record length 5). -/
theorem C7_constant_record_layout (c : ConstVal) :
    (serializeConst c).headD 0 = c.tag ∧
    (serializeConst c).length =
      (match c with
       | .int _ => 9
       | .float _ => 9
       | .nil => 9
       | .bool _ => 2
       | _ => 5) := by
  cases c <;> simp [serializeConst, ConstVal.tag, writeLE_length]

/-- C1: compiling a for loop with a condition leaves the JMP_IFNOT emitted
after the condition with the 0xFFFFFFFF placeholder operand — the exit
jump is never backpatched (compileFor records it in a dead local copy of
the loop context), so the finished code stream retains a 0xFFFFFFFF jump
operand, contradicting the jump-correctness claim. -/
theorem C1_for_condition_jump_left_unpatched :
    (compileProgram astForLoop).map (fun bc => bc.code) =
      .ok [⟨OP_PUSH, 0⟩, ⟨OP_JMP_IFNOT, 0xFFFFFFFF⟩, ⟨OP_JMP, 0⟩,
        ⟨OP_PUSH, 1⟩, ⟨OP_RET, 0⟩, ⟨OP_HALT, 0⟩] := rfl

/-- C2: CALL stores f's argument at locals[local_start + 0] = locals[1]
(value 2), but LOAD 0 executed inside f pushes locals[0] — the caller's
slot holding 7 — because opLoad indexes the locals vector absolutely,
ignoring the frame's local_start. -/
theorem C2_load_ignores_frame_offset :
    (callFunction vmFunctions 10 vmBeforeCall).map
      (fun st => st.locals.getD 1 .nil) = .ok (.int 2) ∧
    ((callFunction vmFunctions 10 vmBeforeCall).bind (fun st => opLoad 0 st)).map
      (fun st => st.stack.headD .nil) = .ok (.int 7) := ⟨rfl, rfl⟩

/-- C3: with two values on the operand stack and f of arity 1, CALL
removes BOTH values (the argument loop pops one into the callee's locals,
then the second loop pops arity more), leaving an empty stack; after f's
body (LOAD 0) and the matching RET the stack holds 1 value, not the 2 the
arity discipline demands. -/
theorem C3_call_pops_operands_twice :
    (callFunction vmFunctions 10 vmBeforeCallDeep).map
      (fun st => st.stack.length) = .ok 0 ∧
    (((callFunction vmFunctions 10 vmBeforeCallDeep).bind
        (fun st => opLoad 0 st)).bind returnFromFunction).map
      (fun st => st.stack.length) = .ok 1 := ⟨rfl, rfl⟩

/-- C4: the parser lowers the assignment statement x = 2; to an expression
statement holding BinaryExpr(x, "=", 2) — never an AssignStmt — and the
compiler's binary-operator table has no "=" case, so the pipeline rejects
every assignment to a declared local with "Unknown binary operator: =". -/
theorem C4_assignment_statement_rejected :
    (parseStatement 100 { tokens := tokensAssign }).map (fun p => p.1) =
      .ok (some (.exprS (.binary (.varE "x") "=" (.lit (.int 2))))) ∧
    compileProgram astAssign = .error "Unknown binary operator: =" := ⟨rfl, rfl⟩

/-- C6: the pre-pass counts two local slots for Main (a and the
block-local b), but compileBlock pushes a fresh context whose slot counter
restarts at 0, so b receives slot 0 — the same slot as a: both
declarations store to STORE 0. -/
theorem C6_nested_block_reuses_slot_zero :
    (compileProgram astNestedBlock).map (fun bc => bc.code) =
      .ok [⟨OP_PUSH, 0⟩, ⟨OP_STORE, 0⟩, ⟨OP_PUSH, 1⟩, ⟨OP_STORE, 0⟩,
        ⟨OP_PUSH, 2⟩, ⟨OP_RET, 0⟩, ⟨OP_HALT, 0⟩] ∧
    (compileProgram astNestedBlock).map
      (fun bc => bc.functions.map (fun f => f.locals)) = .ok [2] := ⟨rfl, rfl⟩

/-- C9: lexing an identifier on physical line 2 (after one newline) emits
it carrying line 3: the consumed newline bumps the line counter twice,
once in advance() and once in scanToken's newline case. -/
theorem C9_newline_double_counts_line :
    (tokenize srcTwoLines).tokens.getD 0 default = ⟨.IDENTIFIER, "a", 1, 2⟩ ∧
    (tokenize srcTwoLines).tokens.getD 1 default = ⟨.IDENTIFIER, "b", 3, 2⟩ :=
  ⟨rfl, rfl⟩

end TailSpec
